import Mathlib

/-!
# Minisweep: the serial sweep (`serial_c/sweeper_simple_c.h`) and the
# accelerator environment layer (`src/1_base/env_hip.cpp`)

A shallow embedding of `Sweeper_sweep` and of the `Env_hip_*` / `cuda_copy_*`
functions, followed by the properties proved about them.

Conventions of the embedding.

* C `int` values are `Int`; no index computed by the sweep leaves the interval
  `[-1, max extent]`, so machine overflow plays no role.
* A C array (`P*`) is a total function from flat offsets to scalars.  The
  accessor functions `ref_*` of `array_accessors.h` return the flat offset.
* The scalar type `P` is an arbitrary semiring (exact arithmetic).
* Headers that are not part of the sources at hand (`definitions.h`,
  `array_accessors.h`, `quantities.h`) are represented by the record
  `Externals`, whose fields are parameters of every definition.
* A `for( i=0; i<n; ++i )` loop is `forLt`; a direction loop
  `for( i=beg; i!=stop; i+=inc )` is `forNe`, which carries fuel because the
  test `!=` does not by itself bound the number of iterations.
-/

namespace Minisweep

/-! ## Data model -/

/-- The record `Dimensions` (dimensions.h): the six extents, C `int`s. -/
structure Dimensions where
  nx : Int
  ny : Int
  nz : Int
  ne : Int
  nm : Int
  na : Int
deriving DecidableEq, Repr

/-- The part of `Quantities` read by the sweep itself: the two dense
transform operators, as flat arrays. -/
structure Quantities (P : Type) where
  a_from_m : Nat → P
  m_from_a : Nat → P

/-- The record `Sweeper`: the local transform buffer and the three face
buffers, as flat arrays. -/
structure Sweeper (P : Type) where
  v_local : Nat → P
  facexy : Nat → P
  facexz : Nat → P
  faceyz : Nat → P

/-- Modelled from the spec: the direction flag of `definitions.h` (not among the
sources at hand).  The spec describes it as a binary flag, each axis being
either "up" or "down". -/
inductive Dir where
  | up : Dir
  | dn : Dir
deriving DecidableEq, Repr

/-- Modelled from the spec: `Dir_up()` of `definitions.h`. -/
def Dir_up : Dir := Dir.up

/-- Modelled from the spec: `Dir_dn()` of `definitions.h`. -/
def Dir_dn : Dir := Dir.dn

/-- Modelled from the spec: `Dir_inc` of `definitions.h`; the step sign of an
axis, increasing when the direction is up and decreasing when it is down. -/
def Dir_inc (d : Dir) : Int :=
  match d with
  | Dir.up => 1
  | Dir.dn => -1

/-- Modelled from the spec: `NOCTANT` of `definitions.h`; a sweep enumerates
the eight octants `0..7`. -/
def NOCTANT : Int := 8

/-- Modelled from the spec: `initialize_state_zero`, declared in
`array_operations.h` and defined in a file that is not among the sources at
hand.  It sets every element of the field to the scalar zero. -/
def initialize_state_zero {P : Type} [Zero P] (_v : Nat → P) (_dims : Dimensions)
    (_nu : Int) : Nat → P :=
  fun _ => 0

/-- What `Sweeper_sweep` uses from headers that are not among the sources at
hand.  Index arguments are in the order of the C calls. -/
structure Externals (P : Type) where
  /-- The constant `NU` (number of unknowns per grid cell). -/
  NU : Int
  /-- The decoding `Dir_x( octant )`. -/
  Dir_x : Int → Dir
  /-- The decoding `Dir_y( octant )`. -/
  Dir_y : Int → Dir
  /-- The decoding `Dir_z( octant )`. -/
  Dir_z : Int → Dir
  /-- Offset of `ref_state( v, dims, nu, ix, iy, iz, ie, im, iu )`. -/
  ref_state : Dimensions → Int → Int → Int → Int → Int → Int → Int → Nat
  /-- Offset of `ref_v_local( v, dims, nu, ia, iu )`. -/
  ref_v_local : Dimensions → Int → Int → Int → Nat
  /-- Offset of `ref_a_from_m( v, dims, im, ia )`. -/
  ref_a_from_m : Dimensions → Int → Int → Nat
  /-- Offset of `ref_m_from_a( v, dims, im, ia )`. -/
  ref_m_from_a : Dimensions → Int → Int → Nat
  /-- Offset of `ref_facexy( v, dims, nu, ix, iy, ie, ia, iu, octant_ind )`. -/
  ref_facexy : Dimensions → Int → Int → Int → Int → Int → Int → Int → Nat
  /-- Offset of `ref_facexz( v, dims, nu, ix, iz, ie, ia, iu, octant_ind )`. -/
  ref_facexz : Dimensions → Int → Int → Int → Int → Int → Int → Int → Nat
  /-- Offset of `ref_faceyz( v, dims, nu, iy, iz, ie, ia, iu, octant_ind )`. -/
  ref_faceyz : Dimensions → Int → Int → Int → Int → Int → Int → Int → Nat
  /-- The boundary value `Quantities_init_facexy( ix, iy, iz, ie, ia, iu, dims )`. -/
  Quantities_init_facexy : Int → Int → Int → Int → Int → Int → Dimensions → P
  /-- The boundary value `Quantities_init_facexz( ix, iy, iz, ie, ia, iu, dims )`. -/
  Quantities_init_facexz : Int → Int → Int → Int → Int → Int → Dimensions → P
  /-- The boundary value `Quantities_init_faceyz( ix, iy, iz, ie, ia, iu, dims )`. -/
  Quantities_init_faceyz : Int → Int → Int → Int → Int → Int → Dimensions → P
  /-- The call `Quantities_solve( v_local, facexy, facexz, faceyz, ix, iy, iz,
  ie, octant, octant_ind, quan, dims )`: the four buffers it may write, after
  the call, as a function of all its arguments. -/
  Quantities_solve : (Nat → P) → (Nat → P) → (Nat → P) → (Nat → P) →
    Int → Int → Int → Int → Int → Int → Quantities P → Dimensions → Sweeper P

/-- The memory `Sweeper_sweep` works on: the sweeper's buffers, the output
field and the input field. -/
structure State (P : Type) where
  sweeper : Sweeper P
  vo : Nat → P
  vi : Nat → P

/-! ## Loops -/

/-- The loop `for( i=0; i<n; ++i ) body`. -/
def forLt {σ : Type} (n : Int) (body : Int → σ → σ) (s : σ) : σ :=
  (List.range n.toNat).foldl (fun (acc : σ) (i : Nat) => body (Int.ofNat i) acc) s

/-- The loop `for( i=0; i<n; ++i ) body` whose body contains a direction
loop and may therefore run out of fuel. -/
def forLtM {σ : Type} (n : Int) (body : Int → σ → Option σ) (s : σ) : Option σ :=
  (List.range n.toNat).foldlM (fun (acc : σ) (i : Nat) => body (Int.ofNat i) acc) s

/-- The loop `for( i=beg; i!=stop; i+=inc ) body`, with fuel. -/
def forNe {σ : Type} (fuel : Nat) (i stop inc : Int) (body : Int → σ → Option σ)
    (s : σ) : Option σ :=
  match fuel with
  | 0 => none
  | fuel + 1 =>
    if i = stop then some s
    else (body i s).bind (fun s1 => forNe fuel (i + inc) stop inc body s1)

/-! ## The sweep -/

section Sweep

variable {P : Type} [Semiring P]

/-- Face initialisation, XY face (first block after the comment on the
semantics of the face arrays). -/
def init_facexy (X : Externals P) (dims : Dimensions) (idirz : Dir) (octant_ind : Int)
    (facexy : Nat → P) : Nat → P :=
  let iz : Int := if idirz = Dir_up then -1 else dims.nz
  forLt X.NU (fun iu f =>
  forLt dims.ny (fun iy f =>
  forLt dims.nx (fun ix f =>
  forLt dims.ne (fun ie f =>
  forLt dims.na (fun ia f =>
    Function.update f (X.ref_facexy dims X.NU ix iy ie ia iu octant_ind)
      (X.Quantities_init_facexy ix iy iz ie ia iu dims)) f) f) f) f) facexy

/-- Face initialisation, XZ face. -/
def init_facexz (X : Externals P) (dims : Dimensions) (idiry : Dir) (octant_ind : Int)
    (facexz : Nat → P) : Nat → P :=
  let iy : Int := if idiry = Dir_up then -1 else dims.ny
  forLt X.NU (fun iu f =>
  forLt dims.nz (fun iz f =>
  forLt dims.nx (fun ix f =>
  forLt dims.ne (fun ie f =>
  forLt dims.na (fun ia f =>
    Function.update f (X.ref_facexz dims X.NU ix iz ie ia iu octant_ind)
      (X.Quantities_init_facexz ix iy iz ie ia iu dims)) f) f) f) f) facexz

/-- Face initialisation, YZ face. -/
def init_faceyz (X : Externals P) (dims : Dimensions) (idirx : Dir) (octant_ind : Int)
    (faceyz : Nat → P) : Nat → P :=
  let ix : Int := if idirx = Dir_up then -1 else dims.nx
  forLt X.NU (fun iu f =>
  forLt dims.nz (fun iz f =>
  forLt dims.ny (fun iy f =>
  forLt dims.ne (fun ie f =>
  forLt dims.na (fun ia f =>
    Function.update f (X.ref_faceyz dims X.NU iy iz ie ia iu octant_ind)
      (X.Quantities_init_faceyz ix iy iz ie ia iu dims)) f) f) f) f) faceyz

/-- The three face-initialisation blocks of one octant, in source order. -/
def init_faces (X : Externals P) (dims : Dimensions) (idirx idiry idirz : Dir)
    (octant_ind : Int) (s : State P) : State P :=
  { sweeper :=
      { v_local := s.sweeper.v_local
        facexy := init_facexy X dims idirz octant_ind s.sweeper.facexy
        facexz := init_facexz X dims idiry octant_ind s.sweeper.facexz
        faceyz := init_faceyz X dims idirx octant_ind s.sweeper.faceyz }
    vo := s.vo
    vi := s.vi }

/-- The inner product of the moments-to-angles transform: `result` after the
`im` loop. -/
def a_from_m_row (X : Externals P) (quan : Quantities P) (dims : Dimensions)
    (vi : Nat → P) (ix iy iz ie ia iu : Int) : P :=
  forLt dims.nm (fun im result =>
    result + quan.a_from_m (X.ref_a_from_m dims im ia) *
             vi (X.ref_state dims X.NU ix iy iz ie im iu)) 0

/-- "Transform state vector from moments to angles". -/
def moments_to_angles (X : Externals P) (quan : Quantities P) (dims : Dimensions)
    (ix iy iz ie : Int) (s : State P) : State P :=
  forLt X.NU (fun iu s1 =>
  forLt dims.na (fun ia s2 =>
    let result : P := a_from_m_row X quan dims s2.vi ix iy iz ie ia iu
    let v_local : Nat → P :=
      Function.update s2.sweeper.v_local (X.ref_v_local dims X.NU ia iu) result
    { sweeper :=
        { v_local := v_local
          facexy := s2.sweeper.facexy
          facexz := s2.sweeper.facexz
          faceyz := s2.sweeper.faceyz }
      vo := s2.vo
      vi := s2.vi }) s1) s

/-- "Perform solve": the call of `Quantities_solve`. -/
def solve_step (X : Externals P) (quan : Quantities P) (dims : Dimensions)
    (ix iy iz ie octant octant_ind : Int) (s : State P) : State P :=
  let after : Sweeper P :=
    X.Quantities_solve s.sweeper.v_local s.sweeper.facexy s.sweeper.facexz
      s.sweeper.faceyz ix iy iz ie octant octant_ind quan dims
  { sweeper := after
    vo := s.vo
    vi := s.vi }

/-- The inner product of the angles-to-moments transform: `result` after the
`ia` loop. -/
def m_from_a_row (X : Externals P) (quan : Quantities P) (dims : Dimensions)
    (v_local : Nat → P) (im iu : Int) : P :=
  forLt dims.na (fun ia result =>
    result + quan.m_from_a (X.ref_m_from_a dims im ia) *
             v_local (X.ref_v_local dims X.NU ia iu)) 0

/-- "Transform state vector from angles to moments". -/
def angles_to_moments (X : Externals P) (quan : Quantities P) (dims : Dimensions)
    (ix iy iz ie : Int) (s : State P) : State P :=
  forLt X.NU (fun iu s1 =>
  forLt dims.nm (fun im s2 =>
    let result : P := m_from_a_row X quan dims s2.sweeper.v_local im iu
    let k : Nat := X.ref_state dims X.NU ix iy iz ie im iu
    { sweeper := s2.sweeper
      vo := Function.update s2.vo k (s2.vo k + result)
      vi := s2.vi }) s1) s

/-- The body of the gridcell loops: the three phases at one cell. -/
def cell_body (X : Externals P) (quan : Quantities P) (dims : Dimensions)
    (octant octant_ind ie iz iy ix : Int) (s : State P) : State P :=
  angles_to_moments X quan dims ix iy iz ie
    (solve_step X quan dims ix iy iz ie octant octant_ind
      (moments_to_angles X quan dims ix iy iz ie s))

end Sweep

/-- The loop along one axis: `beg`, `end` and the test `i != end + Dir_inc`
computed as under "Calculate spatial loop extents". -/
def axis_loop {σ : Type} (fuel : Nat) (n : Int) (d : Dir) (body : Int → σ → Option σ)
    (s : σ) : Option σ :=
  let ibeg : Int := if d = Dir_up then 0 else n - 1
  let iend : Int := if d = Dir_dn then 0 else n - 1
  forNe fuel ibeg (iend + Dir_inc d) (Dir_inc d) body s

/-- "Loop over gridcells, in proper direction": z outermost, then y, then x,
around an arbitrary body. -/
def grid_loop {σ : Type} (fuel : Nat) (dims : Dimensions) (idirx idiry idirz : Dir)
    (body : Int → Int → Int → σ → σ) (s : σ) : Option σ :=
  axis_loop fuel dims.nz idirz (fun iz sz =>
  axis_loop fuel dims.ny idiry (fun iy sy =>
  axis_loop fuel dims.nx idirx (fun ix sx => some (body iz iy ix sx)) sy) sz) s

section Sweep

variable {P : Type} [Semiring P]

/-- "Loop over energy groups" of one octant, with the gridcell loops inside. -/
def energy_loop (X : Externals P) (fuel : Nat) (quan : Quantities P) (dims : Dimensions)
    (octant octant_ind : Int) (s : State P) : Option (State P) :=
  forLtM dims.ne (fun ie se =>
    grid_loop fuel dims (X.Dir_x octant) (X.Dir_y octant) (X.Dir_z octant)
      (fun iz iy ix sc => cell_body X quan dims octant octant_ind ie iz iy ix sc) se) s

/-- The body of the octant loop: face initialisation, then the traversal. -/
def octant_pass (X : Externals P) (fuel : Nat) (quan : Quantities P) (dims : Dimensions)
    (octant : Int) (s : State P) : Option (State P) :=
  let octant_ind : Int := 0
  energy_loop X fuel quan dims octant octant_ind
    (init_faces X dims (X.Dir_x octant) (X.Dir_y octant) (X.Dir_z octant) octant_ind s)

/-- The function `Sweeper_sweep`. -/
def Sweeper_sweep (X : Externals P) (fuel : Nat) (sweeper : Sweeper P) (vo vi : Nat → P)
    (quan : Quantities P) (dims : Dimensions) : Option (State P) :=
  forLtM NOCTANT (fun octant s => octant_pass X fuel quan dims octant s)
    { sweeper := sweeper, vo := initialize_state_zero vo dims X.NU, vi := vi }

/-- One octant's pass on its own: the output field is zeroed, then only the
body of the octant loop for `octant` runs. -/
def sweep_single_octant (X : Externals P) (fuel : Nat) (sweeper : Sweeper P)
    (vo vi : Nat → P) (quan : Quantities P) (dims : Dimensions) (octant : Int) :
    Option (State P) :=
  octant_pass X fuel quan dims octant
    { sweeper := sweeper, vo := initialize_state_zero vo dims X.NU, vi := vi }

end Sweep

/-! ## Traversal orders (specification side) -/

/-- The indices `0, 1, …, n-1` in ascending order (empty when `n ≤ 0`). -/
def upto (n : Int) : List Int :=
  (List.range n.toNat).map (fun j : Nat => (j : Int))

/-- The indices of one axis in the order in which the direction loop visits
them: ascending for up, descending for down. -/
def axis_order (n : Int) (d : Dir) : List Int :=
  match d with
  | Dir.up => upto n
  | Dir.dn => (upto n).reverse

/-- Writing `val a` at offset `off a` for every `a` of a list, in order. -/
def update_fold {α P : Type} (off : α → Nat) (val : α → P) (l : List α) (f : Nat → P) :
    Nat → P :=
  l.foldl (fun g a => Function.update g (off a) (val a)) f

/-- Adding `val a` to the element at offset `off a` for every `a` of a list,
in order. -/
def accum_fold {α P : Type} [Add P] (off : α → Nat) (val : α → P) (l : List α)
    (f : Nat → P) : Nat → P :=
  l.foldl (fun g a => Function.update g (off a) (g (off a) + val a)) f

/-- The cells `(iz, iy, ix)` in the order of the gridcell loops. -/
def cell_order (dims : Dimensions) (idirx idiry idirz : Dir) : List (Int × Int × Int) :=
  (axis_order dims.nz idirz).product
    ((axis_order dims.ny idiry).product (axis_order dims.nx idirx))

/-- The visits `(ie, iz, iy, ix)` of one octant in execution order. -/
def visit_order (dims : Dimensions) (idirx idiry idirz : Dir) :
    List (Int × Int × Int × Int) :=
  (upto dims.ne).product (cell_order dims idirx idiry idirz)

/-- The extents of the grid are non-negative, and the fuel given to the
direction loops exceeds each of them. -/
def FuelCovers (fuel : Nat) (dims : Dimensions) : Prop :=
  (0 ≤ dims.nx ∧ dims.nx.toNat < fuel) ∧ (0 ≤ dims.ny ∧ dims.ny.toNat < fuel) ∧
    (0 ≤ dims.nz ∧ dims.nz.toNat < fuel)

/-- One octant's pass written as a fold over its visits: the state after the
face initialisation, then `cell_body` at every visit in execution order. -/
def octant_result {P : Type} [Semiring P] (X : Externals P) (quan : Quantities P)
    (dims : Dimensions) (octant : Int) (s : State P) : State P :=
  (visit_order dims (X.Dir_x octant) (X.Dir_y octant) (X.Dir_z octant)).foldl
    (fun acc v => cell_body X quan dims octant 0 v.1 v.2.1 v.2.2.1 v.2.2.2 acc)
    (init_faces X dims (X.Dir_x octant) (X.Dir_y octant) (X.Dir_z octant) 0 s)

/-- The sweep written as a fold: the state after all eight octants. -/
def sweep_result {P : Type} [Semiring P] (X : Externals P) (sweeper : Sweeper P)
    (vo vi : Nat → P) (quan : Quantities P) (dims : Dimensions) : State P :=
  forLt NOCTANT (fun octant s => octant_result X quan dims octant s)
    { sweeper := sweeper, vo := initialize_state_zero vo dims X.NU, vi := vi }

/-- The indices at which the loop along one axis runs its body, recorded in
execution order. -/
def axis_trace (fuel : Nat) (n : Int) (d : Dir) : Option (List Int) :=
  axis_loop fuel n d (fun i visited => some (visited ++ [i])) []

/-- The cells `(iz, iy, ix)` at which the gridcell loops run their body,
recorded in execution order. -/
def grid_trace (fuel : Nat) (dims : Dimensions) (idirx idiry idirz : Dir) :
    Option (List (Int × Int × Int)) :=
  grid_loop fuel dims idirx idiry idirz (fun iz iy ix visited => visited ++ [(iz, iy, ix)]) []

/-- Execution order of the visits of one octant: lexicographic in the energy
group, then z, y and x, each axis compared in its own direction. -/
def visit_lt (dx dy dz : Dir) (v w : Int × Int × Int × Int) : Prop :=
  v.1 < w.1 ∨ (v.1 = w.1 ∧
    (Dir_inc dz * v.2.1 < Dir_inc dz * w.2.1 ∨ (v.2.1 = w.2.1 ∧
      (Dir_inc dy * v.2.2.1 < Dir_inc dy * w.2.2.1 ∨ (v.2.2.1 = w.2.2.1 ∧
        Dir_inc dx * v.2.2.2 < Dir_inc dx * w.2.2.2)))))

/-! ## Allocated slots and assumptions on the absent declarations -/

/-- The index `i` lies in `[0, n)`. -/
def InRange (i n : Int) : Prop := 0 ≤ i ∧ i < n

/-- In-range index pairs of the local buffer have distinct offsets. -/
def VLocalInj {P : Type} (X : Externals P) (dims : Dimensions) : Prop :=
  ∀ ia iu ia1 iu1 : Int, InRange ia dims.na → InRange iu X.NU →
    InRange ia1 dims.na → InRange iu1 X.NU →
    X.ref_v_local dims X.NU ia iu = X.ref_v_local dims X.NU ia1 iu1 → ia = ia1 ∧ iu = iu1

/-- At the cell `(ix, iy, iz, ie)`, in-range (moment, unknown) pairs of a state
field have distinct offsets. -/
def StateCellInj {P : Type} (X : Externals P) (dims : Dimensions) (ix iy iz ie : Int) :
    Prop :=
  ∀ im iu im1 iu1 : Int, InRange im dims.nm → InRange iu X.NU →
    InRange im1 dims.nm → InRange iu1 X.NU →
    X.ref_state dims X.NU ix iy iz ie im iu = X.ref_state dims X.NU ix iy iz ie im1 iu1 →
    im = im1 ∧ iu = iu1

/-- In-range index tuples of the XY face buffer (octant slot 0) have distinct
offsets. -/
def FaceXYInj {P : Type} (X : Externals P) (dims : Dimensions) : Prop :=
  ∀ ix iy ie ia iu ix1 iy1 ie1 ia1 iu1 : Int,
    InRange ix dims.nx → InRange iy dims.ny → InRange ie dims.ne → InRange ia dims.na →
    InRange iu X.NU →
    InRange ix1 dims.nx → InRange iy1 dims.ny → InRange ie1 dims.ne → InRange ia1 dims.na →
    InRange iu1 X.NU →
    X.ref_facexy dims X.NU ix iy ie ia iu 0 = X.ref_facexy dims X.NU ix1 iy1 ie1 ia1 iu1 0 →
    ix = ix1 ∧ iy = iy1 ∧ ie = ie1 ∧ ia = ia1 ∧ iu = iu1

/-- In-range index tuples of the XZ face buffer (octant slot 0) have distinct
offsets. -/
def FaceXZInj {P : Type} (X : Externals P) (dims : Dimensions) : Prop :=
  ∀ ix iz ie ia iu ix1 iz1 ie1 ia1 iu1 : Int,
    InRange ix dims.nx → InRange iz dims.nz → InRange ie dims.ne → InRange ia dims.na →
    InRange iu X.NU →
    InRange ix1 dims.nx → InRange iz1 dims.nz → InRange ie1 dims.ne → InRange ia1 dims.na →
    InRange iu1 X.NU →
    X.ref_facexz dims X.NU ix iz ie ia iu 0 = X.ref_facexz dims X.NU ix1 iz1 ie1 ia1 iu1 0 →
    ix = ix1 ∧ iz = iz1 ∧ ie = ie1 ∧ ia = ia1 ∧ iu = iu1

/-- In-range index tuples of the YZ face buffer (octant slot 0) have distinct
offsets. -/
def FaceYZInj {P : Type} (X : Externals P) (dims : Dimensions) : Prop :=
  ∀ iy iz ie ia iu iy1 iz1 ie1 ia1 iu1 : Int,
    InRange iy dims.ny → InRange iz dims.nz → InRange ie dims.ne → InRange ia dims.na →
    InRange iu X.NU →
    InRange iy1 dims.ny → InRange iz1 dims.nz → InRange ie1 dims.ne → InRange ia1 dims.na →
    InRange iu1 X.NU →
    X.ref_faceyz dims X.NU iy iz ie ia iu 0 = X.ref_faceyz dims X.NU iy1 iz1 ie1 ia1 iu1 0 →
    iy = iy1 ∧ iz = iz1 ∧ ie = ie1 ∧ ia = ia1 ∧ iu = iu1

/-- The offset `k` is an allocated slot of the local buffer: the offset of an
in-range (angle, unknown) pair. -/
def AllocV {P : Type} (X : Externals P) (dims : Dimensions) (k : Nat) : Prop :=
  ∃ ia iu : Int, InRange ia dims.na ∧ InRange iu X.NU ∧ X.ref_v_local dims X.NU ia iu = k

/-- The offset `k` is an allocated slot of the XY face buffer. -/
def AllocXY {P : Type} (X : Externals P) (dims : Dimensions) (k : Nat) : Prop :=
  ∃ ix iy ie ia iu : Int, InRange ix dims.nx ∧ InRange iy dims.ny ∧ InRange ie dims.ne ∧
    InRange ia dims.na ∧ InRange iu X.NU ∧ X.ref_facexy dims X.NU ix iy ie ia iu 0 = k

/-- The offset `k` is an allocated slot of the XZ face buffer. -/
def AllocXZ {P : Type} (X : Externals P) (dims : Dimensions) (k : Nat) : Prop :=
  ∃ ix iz ie ia iu : Int, InRange ix dims.nx ∧ InRange iz dims.nz ∧ InRange ie dims.ne ∧
    InRange ia dims.na ∧ InRange iu X.NU ∧ X.ref_facexz dims X.NU ix iz ie ia iu 0 = k

/-- The offset `k` is an allocated slot of the YZ face buffer. -/
def AllocYZ {P : Type} (X : Externals P) (dims : Dimensions) (k : Nat) : Prop :=
  ∃ iy iz ie ia iu : Int, InRange iy dims.ny ∧ InRange iz dims.nz ∧ InRange ie dims.ne ∧
    InRange ia dims.na ∧ InRange iu X.NU ∧ X.ref_faceyz dims X.NU iy iz ie ia iu 0 = k

/-- Two sweepers hold the same values in all allocated slots of the three
face buffers. -/
def FacesAgree {P : Type} (X : Externals P) (dims : Dimensions) (a b : Sweeper P) : Prop :=
  (∀ k, AllocXY X dims k → a.facexy k = b.facexy k) ∧
  (∀ k, AllocXZ X dims k → a.facexz k = b.facexz k) ∧
  (∀ k, AllocYZ X dims k → a.faceyz k = b.faceyz k)

/-- Two sweepers hold the same values in all allocated slots of the four
buffers. -/
def SweeperAgree {P : Type} (X : Externals P) (dims : Dimensions) (a b : Sweeper P) :
    Prop :=
  (∀ k, AllocV X dims k → a.v_local k = b.v_local k) ∧ FacesAgree X dims a b

/-- The solve operator is a function of its arguments only: at an in-range
cell, energy group and octant, the contents of the allocated slots of the four
buffers after the call are determined by their contents before the call. -/
def SolveLocal {P : Type} (X : Externals P) (quan : Quantities P) (dims : Dimensions) :
    Prop :=
  ∀ (a b : Sweeper P) (ix iy iz ie octant : Int),
    InRange ix dims.nx → InRange iy dims.ny → InRange iz dims.nz → InRange ie dims.ne →
    InRange octant NOCTANT → SweeperAgree X dims a b →
    SweeperAgree X dims
      (X.Quantities_solve a.v_local a.facexy a.facexz a.faceyz ix iy iz ie octant 0 quan dims)
      (X.Quantities_solve b.v_local b.facexy b.facexz b.faceyz ix iy iz ie octant 0 quan dims)

/-- The solve operator writes, in each face buffer, only the slots addressed
by its own cell's in-plane coordinates, energy group and octant slot 0. -/
def SolveWritesOwn {P : Type} (X : Externals P) (quan : Quantities P) (dims : Dimensions) :
    Prop :=
  ∀ (a : Sweeper P) (ix iy iz ie octant : Int),
    InRange ix dims.nx → InRange iy dims.ny → InRange iz dims.nz → InRange ie dims.ne →
    InRange octant NOCTANT →
    (∀ k : Nat,
      (∀ ia iu : Int, InRange ia dims.na → InRange iu X.NU →
        X.ref_facexy dims X.NU ix iy ie ia iu 0 ≠ k) →
      (X.Quantities_solve a.v_local a.facexy a.facexz a.faceyz ix iy iz ie octant 0 quan
        dims).facexy k = a.facexy k) ∧
    (∀ k : Nat,
      (∀ ia iu : Int, InRange ia dims.na → InRange iu X.NU →
        X.ref_facexz dims X.NU ix iz ie ia iu 0 ≠ k) →
      (X.Quantities_solve a.v_local a.facexy a.facexz a.faceyz ix iy iz ie octant 0 quan
        dims).facexz k = a.facexz k) ∧
    (∀ k : Nat,
      (∀ ia iu : Int, InRange ia dims.na → InRange iu X.NU →
        X.ref_faceyz dims X.NU iy iz ie ia iu 0 ≠ k) →
      (X.Quantities_solve a.v_local a.facexy a.facexz a.faceyz ix iy iz ie octant 0 quan
        dims).faceyz k = a.faceyz k)

/-- The visits `(ie, iz, iy, ix)` of the pass of `octant`, in execution order. -/
def octant_visits {P : Type} (X : Externals P) (dims : Dimensions) (octant : Int) :
    List (Int × Int × Int × Int) :=
  visit_order dims (X.Dir_x octant) (X.Dir_y octant) (X.Dir_z octant)

/-- The memory at the moment the `k`-th visit of the pass of `octant` begins:
the face initialisation, then the first `k` cell visits. -/
def state_before {P : Type} [Semiring P] (X : Externals P) (quan : Quantities P)
    (dims : Dimensions) (octant : Int) (s : State P) (k : Nat) : State P :=
  ((octant_visits X dims octant).take k).foldl
    (fun acc v => cell_body X quan dims octant 0 v.1 v.2.1 v.2.2.1 v.2.2.2 acc)
    (init_faces X dims (X.Dir_x octant) (X.Dir_y octant) (X.Dir_z octant) 0 s)

/-- The memory on which `Quantities_solve` is called at the visit `v` that
begins in the memory `s1`. -/
def solve_input {P : Type} [Semiring P] (X : Externals P) (quan : Quantities P)
    (dims : Dimensions) (v : Int × Int × Int × Int) (s1 : State P) : State P :=
  moments_to_angles X quan dims v.2.2.2 v.2.2.1 v.2.1 v.1 s1

/-- The memory in which `Quantities_solve` returns at the visit `v` that
begins in the memory `s1`. -/
def solve_output {P : Type} [Semiring P] (X : Externals P) (quan : Quantities P)
    (dims : Dimensions) (octant : Int) (v : Int × Int × Int × Int) (s1 : State P) :
    State P :=
  solve_step X quan dims v.2.2.2 v.2.2.1 v.2.1 v.1 octant 0 (solve_input X quan dims v s1)

/-- All allocated slots of the four buffers of a sweeper hold zero. -/
def ZeroOnAlloc {P : Type} [Zero P] (X : Externals P) (dims : Dimensions) (a : Sweeper P) :
    Prop :=
  (∀ k, AllocV X dims k → a.v_local k = 0) ∧ (∀ k, AllocXY X dims k → a.facexy k = 0) ∧
  (∀ k, AllocXZ X dims k → a.facexz k = 0) ∧ (∀ k, AllocYZ X dims k → a.faceyz k = 0)

/-- The solve operator maps a zero local source together with zero incoming
face flux to zero angular flux and zero outgoing face flux. -/
def SolveZero {P : Type} [Zero P] (X : Externals P) (quan : Quantities P)
    (dims : Dimensions) : Prop :=
  ∀ (a : Sweeper P) (ix iy iz ie octant : Int),
    InRange ix dims.nx → InRange iy dims.ny → InRange iz dims.nz → InRange ie dims.ne →
    InRange octant NOCTANT → ZeroOnAlloc X dims a →
    ZeroOnAlloc X dims
      (X.Quantities_solve a.v_local a.facexy a.facexz a.faceyz ix iy iz ie octant 0 quan dims)

/-- The three boundary initialisers return zero. -/
def BoundaryZero {P : Type} [Zero P] (X : Externals P) : Prop :=
  ∀ (ix iy iz ie ia iu : Int) (dims : Dimensions),
    X.Quantities_init_facexy ix iy iz ie ia iu dims = 0 ∧
    X.Quantities_init_facexz ix iy iz ie ia iu dims = 0 ∧
    X.Quantities_init_faceyz ix iy iz ie ia iu dims = 0

/-- The index tuples `(iu, iy, ix, ie, ia)` of the XY face initialisation, in
loop order (likewise `(iu, iz, ix, ie, ia)` and `(iu, iz, iy, ie, ia)`). -/
def face_tuples (nu n2 n1 ne na : Int) : List (Int × Int × Int × Int × Int) :=
  (upto nu).product ((upto n2).product ((upto n1).product ((upto ne).product (upto na))))

/-! ## A concrete instance

The scenario of the specification: integer scalars, one unknown per cell,
strided accessors, a solve operator that sets the outgoing flux to the
incoming flux plus the local source. -/

/-- Example accessors and physics over the integers. -/
def exExternals (boundary : Int) : Externals Int where
  NU := 1
  Dir_x := fun octant => if octant % 2 = 0 then Dir.up else Dir.dn
  Dir_y := fun octant => if (octant / 2) % 2 = 0 then Dir.up else Dir.dn
  Dir_z := fun octant => if (octant / 4) % 2 = 0 then Dir.up else Dir.dn
  ref_state := fun dims nu ix iy iz ie im iu =>
    (im + dims.nm * (iu + nu * (ix + dims.nx * (iy + dims.ny * (iz + dims.nz * ie))))).toNat
  ref_v_local := fun dims _nu ia iu => (ia + dims.na * iu).toNat
  ref_a_from_m := fun dims im ia => (im + dims.nm * ia).toNat
  ref_m_from_a := fun dims im ia => (im + dims.nm * ia).toNat
  ref_facexy := fun dims nu ix iy ie ia iu octant_ind =>
    (ia + dims.na * (iu + nu * (ix + dims.nx * (iy + dims.ny * (ie + dims.ne * octant_ind))))).toNat
  ref_facexz := fun dims nu ix iz ie ia iu octant_ind =>
    (ia + dims.na * (iu + nu * (ix + dims.nx * (iz + dims.nz * (ie + dims.ne * octant_ind))))).toNat
  ref_faceyz := fun dims nu iy iz ie ia iu octant_ind =>
    (ia + dims.na * (iu + nu * (iy + dims.ny * (iz + dims.nz * (ie + dims.ne * octant_ind))))).toNat
  Quantities_init_facexy := fun _ _ _ _ _ _ _ => boundary
  Quantities_init_facexz := fun _ _ _ _ _ _ _ => boundary
  Quantities_init_faceyz := fun _ _ _ _ _ _ _ => boundary
  Quantities_solve := fun v fxy fxz fyz ix iy iz ie _octant octant_ind _quan dims =>
    let kv : Nat := (0 + dims.na * 0 : Int).toNat
    let kxy : Nat :=
      (0 + dims.na * (0 + 1 * (ix + dims.nx * (iy + dims.ny * (ie + dims.ne * octant_ind)))) : Int).toNat
    let kxz : Nat :=
      (0 + dims.na * (0 + 1 * (ix + dims.nx * (iz + dims.nz * (ie + dims.ne * octant_ind)))) : Int).toNat
    let kyz : Nat :=
      (0 + dims.na * (0 + 1 * (iy + dims.ny * (iz + dims.nz * (ie + dims.ne * octant_ind)))) : Int).toNat
    let r : Int := v kv + fxy kxy + fxz kxz + fyz kyz
    { v_local := Function.update v kv r
      facexy := Function.update fxy kxy r
      facexz := Function.update fxz kxz r
      faceyz := Function.update fyz kyz r }

/-- Example dimensions: a single cell, one group, one moment, one angle. -/
def exDims1 : Dimensions := { nx := 1, ny := 1, nz := 1, ne := 1, nm := 1, na := 1 }

/-- Example dimensions of the specification's scenario: two cells per axis. -/
def exDims2 : Dimensions := { nx := 2, ny := 2, nz := 2, ne := 1, nm := 1, na := 1 }

/-- Example transform operators: every entry is one. -/
def exQuan : Quantities Int := { a_from_m := fun _ => 1, m_from_a := fun _ => 1 }

/-- Example scratch state: every buffer holds the given value everywhere. -/
def exSweeper (c : Int) : Sweeper Int :=
  { v_local := fun _ => c, facexy := fun _ => c, facexz := fun _ => c, faceyz := fun _ => c }

/-- Example memory: scratch buffers filled with 7, output field filled with
5, input field filled with 3. -/
def exState : State Int := { sweeper := exSweeper 7, vo := fun _ => 5, vi := fun _ => 3 }

/-! ## The environment layer (`env_hip.cpp`)

The build configuration `USE_HIP` is a Boolean parameter, so that both branches
of every `#ifdef USE_HIP` are present.  The accelerator runtime is an external
library; its entry points are the fields of `HipRuntime`.  A pointer is an
address, `0` being the null pointer; a `size_t` is a natural number below
`2^64`.  A failed `Assert` is an error result. -/

/-- The type `Bool_t` of `types.h` (not among the sources at hand): an integer
type, since `is_using_device_` stores the integer read from the arguments. -/
abbrev Bool_t := Int

/-- The constant `Bool_true`: C's truth value 1. -/
def Bool_true : Bool_t := 1

/-- The constant `Bool_false`: C's truth value 0. -/
def Bool_false : Bool_t := 0

/-- The type `Stream_t`: a stream handle, `0` being the null stream. -/
abbrev Stream_t := Nat

/-- The runtime's status `hipSuccess`. -/
def hipSuccess : Int := 0

/-- The fields of `Env` used by `env_hip.cpp`. -/
structure Env where
  stream_send_block_ : Stream_t
  stream_recv_block_ : Stream_t
  stream_kernel_faces_ : Stream_t
  is_using_device_ : Bool_t
deriving DecidableEq, Repr

/-- The direction argument of `hipMemcpy`. -/
inductive MemcpyKind where
  | hipMemcpyHostToDevice : MemcpyKind
  | hipMemcpyDeviceToHost : MemcpyKind
deriving DecidableEq, Repr

/-- Host memory, device memory and the runtime's last-error register. -/
structure Machine (P : Type) where
  host : Nat → P
  device : Nat → P
  last_error : Int

/-- The entry points of the accelerator runtime called by `env_hip.cpp`. -/
structure HipRuntime (P : Type) where
  /-- The call `hipGetLastError()`: the error read, and the machine after the
  destructive read. -/
  hipGetLastError : Machine P → Int × Machine P
  /-- The call `hipStreamCreate( &stream )`: the new handle and the machine. -/
  hipStreamCreate : Machine P → Stream_t × Machine P
  /-- The call `hipStreamDestroy( stream )`. -/
  hipStreamDestroy : Stream_t → Machine P → Machine P
  /-- The call `hipMemcpy( dst, src, bytes, kind )`, the size given in elements. -/
  hipMemcpy : Nat → Nat → Nat → MemcpyKind → Machine P → Machine P
  /-- The call `hipMemcpyAsync( dst, src, bytes, kind, stream )`. -/
  hipMemcpyAsync : Nat → Nat → Nat → MemcpyKind → Stream_t → Machine P → Machine P
  /-- The call `hipStreamSynchronize( stream )`. -/
  hipStreamSynchronize : Stream_t → Machine P → Machine P

/-- The macro `Assert` of `env_assert.h` (not among the sources at hand): a
violated condition is an immediate, non-recoverable failure. -/
def Assert (cond : Bool) : Except String Unit :=
  if cond then Except.ok () else Except.error "Assert"

/-- The condition `n+1 >= 1` on a `size_t`. -/
def size_ok (n : Nat) : Bool := decide ((n + 1) % 2 ^ 64 ≥ 1)

/-- The function `Env_hip_last_call_succeeded`. -/
def Env_hip_last_call_succeeded {P : Type} (USE_HIP : Bool) (H : HipRuntime P)
    (m : Machine P) : Bool_t × Machine P :=
  let result : Bool_t := Bool_true
  if USE_HIP then
    let r := H.hipGetLastError m
    if r.1 ≠ hipSuccess then (Bool_false, r.2) else (result, r.2)
  else (result, m)

/-- The pair `call; Assert( Env_hip_last_call_succeeded() )`. -/
def assert_last_call {P : Type} (USE_HIP : Bool) (H : HipRuntime P) (m : Machine P) :
    Except String (Machine P) :=
  let r := Env_hip_last_call_succeeded USE_HIP H m
  (Assert (decide (r.1 ≠ 0))).map (fun _ => r.2)

/-- The function `Env_hip_initialize_`. -/
def Env_hip_initialize_ {P : Type} (USE_HIP : Bool) (H : HipRuntime P) (env : Env)
    (_argc : Int) (_argv : List String) (m : Machine P) : Except String (Env × Machine P) :=
  if USE_HIP then
    let c1 := H.hipStreamCreate m
    (assert_last_call USE_HIP H c1.2).bind (fun m1 =>
    let c2 := H.hipStreamCreate m1
    (assert_last_call USE_HIP H c2.2).bind (fun m2 =>
    let c3 := H.hipStreamCreate m2
    (assert_last_call USE_HIP H c3.2).bind (fun m3 =>
    Except.ok
      ({ stream_send_block_ := c1.1, stream_recv_block_ := c2.1,
         stream_kernel_faces_ := c3.1, is_using_device_ := env.is_using_device_ }, m3))))
  else Except.ok (env, m)

/-- The function `Env_hip_finalize_`. -/
def Env_hip_finalize_ {P : Type} (USE_HIP : Bool) (H : HipRuntime P) (env : Env)
    (m : Machine P) : Except String (Env × Machine P) :=
  if USE_HIP then
    (assert_last_call USE_HIP H (H.hipStreamDestroy env.stream_send_block_ m)).bind (fun m1 =>
    (assert_last_call USE_HIP H (H.hipStreamDestroy env.stream_recv_block_ m1)).bind (fun m2 =>
    (assert_last_call USE_HIP H (H.hipStreamDestroy env.stream_kernel_faces_ m2)).bind
      (fun m3 => Except.ok (env, m3))))
  else Except.ok (env, m)

/-- The function `Env_hip_is_using_device`. -/
def Env_hip_is_using_device (USE_HIP : Bool) (env : Env) : Bool_t :=
  if USE_HIP then env.is_using_device_ else Bool_false

/-- The function `cuda_copy_host_to_device_P`. -/
def cuda_copy_host_to_device_P {P : Type} (USE_HIP : Bool) (H : HipRuntime P)
    (p_d p_h : Nat) (n : Nat) (m : Machine P) : Except String (Machine P) :=
  if USE_HIP then
    (Assert (decide (p_d ≠ 0))).bind (fun _ =>
    (Assert (decide (p_h ≠ 0))).bind (fun _ =>
    (Assert (size_ok n)).bind (fun _ =>
    assert_last_call USE_HIP H
      (H.hipMemcpy p_d p_h n MemcpyKind.hipMemcpyHostToDevice m))))
  else Except.ok m

/-- The function `cuda_copy_device_to_host_P`. -/
def cuda_copy_device_to_host_P {P : Type} (USE_HIP : Bool) (H : HipRuntime P)
    (p_h p_d : Nat) (n : Nat) (m : Machine P) : Except String (Machine P) :=
  if USE_HIP then
    (Assert (decide (p_h ≠ 0))).bind (fun _ =>
    (Assert (decide (p_d ≠ 0))).bind (fun _ =>
    (Assert (size_ok n)).bind (fun _ =>
    assert_last_call USE_HIP H
      (H.hipMemcpy p_h p_d n MemcpyKind.hipMemcpyDeviceToHost m))))
  else Except.ok m

/-- The function `cuda_copy_host_to_device_stream_P`. -/
def cuda_copy_host_to_device_stream_P {P : Type} (USE_HIP : Bool) (H : HipRuntime P)
    (p_d p_h : Nat) (n : Nat) (stream : Stream_t) (m : Machine P) :
    Except String (Machine P) :=
  if USE_HIP then
    (Assert (decide (p_d ≠ 0))).bind (fun _ =>
    (Assert (decide (p_h ≠ 0))).bind (fun _ =>
    (Assert (size_ok n)).bind (fun _ =>
    assert_last_call USE_HIP H
      (H.hipMemcpyAsync p_d p_h n MemcpyKind.hipMemcpyHostToDevice stream m))))
  else Except.ok m

/-- The function `cuda_copy_device_to_host_stream_P`. -/
def cuda_copy_device_to_host_stream_P {P : Type} (USE_HIP : Bool) (H : HipRuntime P)
    (p_h p_d : Nat) (n : Nat) (stream : Stream_t) (m : Machine P) :
    Except String (Machine P) :=
  if USE_HIP then
    (Assert (decide (p_h ≠ 0))).bind (fun _ =>
    (Assert (decide (p_d ≠ 0))).bind (fun _ =>
    (Assert (size_ok n)).bind (fun _ =>
    assert_last_call USE_HIP H
      (H.hipMemcpyAsync p_h p_d n MemcpyKind.hipMemcpyDeviceToHost stream m))))
  else Except.ok m

/-- The function `Env_hip_stream_send_block`. -/
def Env_hip_stream_send_block (USE_HIP : Bool) (env : Env) : Stream_t :=
  if USE_HIP then env.stream_send_block_ else 0

/-- The function `Env_hip_stream_recv_block`. -/
def Env_hip_stream_recv_block (USE_HIP : Bool) (env : Env) : Stream_t :=
  if USE_HIP then env.stream_recv_block_ else 0

/-- The function `Env_hip_stream_kernel_faces`. -/
def Env_hip_stream_kernel_faces (USE_HIP : Bool) (env : Env) : Stream_t :=
  if USE_HIP then env.stream_kernel_faces_ else 0

/-- The function `Env_hip_stream_wait`. -/
def Env_hip_stream_wait {P : Type} (USE_HIP : Bool) (H : HipRuntime P) (env : Env)
    (stream : Stream_t) (m : Machine P) : Except String (Env × Machine P) :=
  if USE_HIP then
    (assert_last_call USE_HIP H (H.hipStreamSynchronize stream m)).map (fun m1 => (env, m1))
  else Except.ok (env, m)

/-- Modelled from the spec: the macro `Insist` of `env_assert.h` (not among the
sources at hand).  It checks its argument in every build; an argument that is
zero is an immediate, non-recoverable failure. -/
def Insist (cond : Bool) : Except String Unit :=
  if cond then Except.ok () else Except.error "Insist"

/-- The argument of `Insist` in `Env_hip_set_values_`, the expression
`v == 0 || v == 1 ? "Invalid is_using_device value." : 0`.  In C the operator
`||` binds tighter than `?:`, so the condition of the conditional is
`v == 0 || v == 1`.  The value is a pointer: the address of the string literal
(`some`, never null) or the null pointer `0` (`none`). -/
def is_using_device_check (v : Bool_t) : Option String :=
  if (v == 0 || v == 1) then some "Invalid is_using_device value." else none

/-- The function `Env_hip_set_values_`.  The type `Arguments` and the function
`Arguments_consume_int_or_default( args, name, default )` of `arguments.h` are
parameters; the function returns the integer consumed and the remaining
arguments. -/
def Env_hip_set_values_ {Arguments : Type} (USE_HIP : Bool)
    (Arguments_consume_int_or_default : Arguments → String → Int → Int × Arguments)
    (env : Env) (args : Arguments) : Except String (Env × Arguments) :=
  if USE_HIP then
    let consumed := Arguments_consume_int_or_default args "--is_using_device" Bool_false
    let env1 : Env :=
      { stream_send_block_ := env.stream_send_block_
        stream_recv_block_ := env.stream_recv_block_
        stream_kernel_faces_ := env.stream_kernel_faces_
        is_using_device_ := consumed.1 }
    (Insist (is_using_device_check env1.is_using_device_).isSome).map
      (fun _ => (env1, consumed.2))
  else Except.ok (env, args)

/-- Example arguments: a list of integers still to be consumed; consuming
takes the first one, or the default when the list is empty. -/
def exConsume (args : List Int) (_name : String) (dflt : Int) : Int × List Int :=
  (args.headD dflt, args.tail)

/-- Example environment: three stream handles, device flag 0. -/
def exEnv : Env :=
  { stream_send_block_ := 3, stream_recv_block_ := 4, stream_kernel_faces_ := 5,
    is_using_device_ := 0 }

/-! ## Loop lemmas -/

theorem foldl_rel {α σ τ : Type} (R : σ → τ → Prop) (f : σ → α → σ) (g : τ → α → τ)
    (l : List α) (h : ∀ a ∈ l, ∀ s t, R s t → R (f s a) (g t a)) :
    ∀ s t, R s t → R (l.foldl f s) (l.foldl g t) := by
  induction l with
  | nil => intro s t hst; simpa using hst
  | cons a l ih =>
    intro s t hst
    simp only [List.foldl_cons]
    apply ih
    · intro b hb s1 t1 h1
      exact h b (List.mem_cons_of_mem _ hb) s1 t1 h1
    · exact h a (List.mem_cons_self _ _) s t hst

theorem foldl_inv {α σ : Type} (I : σ → Prop) (f : σ → α → σ) (l : List α)
    (h : ∀ a ∈ l, ∀ s, I s → I (f s a)) : ∀ s, I s → I (l.foldl f s) := by
  intro s hs
  exact foldl_rel (fun s1 _ => I s1) f f l (fun a ha s1 _ h1 => h a ha s1 h1) s s hs

theorem mem_upto {n : Int} {i : Int} : i ∈ upto n ↔ 0 ≤ i ∧ i < n := by
  simp only [upto, List.mem_map, List.mem_range]
  constructor
  · rintro ⟨j, hj, rfl⟩
    omega
  · rintro ⟨h0, h1⟩
    exact ⟨i.toNat, by omega, by omega⟩

theorem forLt_eq_foldl {σ : Type} (n : Int) (body : Int → σ → σ) (s : σ) :
    forLt n body s = (upto n).foldl (fun acc i => body i acc) s := by
  unfold forLt upto
  rw [List.foldl_map]
  rfl

theorem forLt_rel {σ τ : Type} (R : σ → τ → Prop) (n : Int) (b1 : Int → σ → σ)
    (b2 : Int → τ → τ)
    (h : ∀ i, 0 ≤ i → i < n → ∀ s t, R s t → R (b1 i s) (b2 i t)) :
    ∀ s t, R s t → R (forLt n b1 s) (forLt n b2 t) := by
  intro s t hst
  rw [forLt_eq_foldl, forLt_eq_foldl]
  apply foldl_rel R _ _ _ _ s t hst
  intro a ha s1 t1 h1
  have := mem_upto.mp ha
  exact h a this.1 this.2 s1 t1 h1

theorem forLt_inv {σ : Type} (I : σ → Prop) (n : Int) (body : Int → σ → σ)
    (h : ∀ i, 0 ≤ i → i < n → ∀ s, I s → I (body i s)) :
    ∀ s, I s → I (forLt n body s) := by
  intro s hs
  exact forLt_rel (fun s1 (_ : σ) => I s1) n body body
    (fun i h0 h1 s1 _ hs1 => h i h0 h1 s1 hs1) s s hs

theorem forLtM_pure {σ : Type} (n : Int) (body : Int → σ → Option σ) (b : Int → σ → σ)
    (h : ∀ i, 0 ≤ i → i < n → ∀ s, body i s = some (b i s)) (s : σ) :
    forLtM n body s = some (forLt n b s) := by
  unfold forLtM forLt
  have key : ∀ (l : List Nat), (∀ j ∈ l, (j : Int) < n) → ∀ s : σ,
      l.foldlM (fun (acc : σ) (i : Nat) => body (Int.ofNat i) acc) s
        = some (l.foldl (fun (acc : σ) (i : Nat) => b (Int.ofNat i) acc) s) := by
    intro l
    induction l with
    | nil => intro _ s; rfl
    | cons a l ih =>
      intro hl s
      have ha : (a : Int) < n := hl a (List.mem_cons_self _ _)
      rw [List.foldlM_cons, List.foldl_cons]
      have e : Int.ofNat a = (a : Int) := rfl
      rw [e, h a (by omega) ha s]
      exact ih (fun j hj => hl j (List.mem_cons_of_mem _ hj)) (b a s)
  apply key
  intro j hj
  have := List.mem_range.mp hj
  omega

/-- A direction loop whose stop value is `k` steps away runs its body at
`i, i+inc, ..., i+(k-1)*inc` and then stops, whenever the fuel exceeds `k`. -/
theorem forNe_steps {σ : Type} (inc : Int) (hinc : inc ≠ 0) (body : Int → σ → Option σ)
    (b : Int → σ → σ) :
    ∀ (k fuel : Nat) (i : Int) (s : σ), k < fuel →
      (∀ j : Nat, j < k → ∀ s1, body (i + j * inc) s1 = some (b (i + j * inc) s1)) →
      forNe fuel i (i + k * inc) inc body s
        = some (((List.range k).map (fun j : Nat => i + j * inc)).foldl
            (fun acc x => b x acc) s) := by
  intro k
  induction k with
  | zero =>
    intro fuel i s hf _
    cases fuel with
    | zero => omega
    | succ f => simp [forNe]
  | succ k ih =>
    intro fuel i s hf hb
    cases fuel with
    | zero => omega
    | succ f =>
      have hne : i ≠ i + ((k + 1 : Nat) : Int) * inc := by
        intro hEq
        have h1 : ((k + 1 : Nat) : Int) * inc = 0 := by linarith
        rcases mul_eq_zero.mp h1 with h2 | h2
        · omega
        · exact hinc h2
      have h0 := hb 0 (by omega) s
      simp only [Nat.cast_zero, zero_mul, add_zero] at h0
      rw [forNe, if_neg hne, h0, Option.some_bind]
      have hstop : i + ((k + 1 : Nat) : Int) * inc = (i + inc) + (k : Int) * inc := by
        push_cast; ring
      rw [hstop, ih f (i + inc) (b i s) (by omega)]
      · congr 1
        rw [List.range_succ_eq_map, List.map_cons, List.foldl_cons, List.map_map]
        simp only [Nat.cast_zero, zero_mul, add_zero]
        congr 1
        apply List.map_congr_left
        intro j _
        simp only [Function.comp, Nat.succ_eq_add_one]
        push_cast; ring
      · intro j hj s1
        have := hb (j + 1) (by omega) s1
        have e : i + ((j + 1 : Nat) : Int) * inc = i + inc + (j : Int) * inc := by
          push_cast; ring
        rw [e] at this
        exact this

theorem mem_axis_order {n : Int} {d : Dir} {i : Int} :
    i ∈ axis_order n d ↔ 0 ≤ i ∧ i < n := by
  cases d
  · exact mem_upto
  · unfold axis_order
    rw [List.mem_reverse]
    exact mem_upto

theorem axis_loop_eq {σ : Type} (fuel : Nat) (n : Int) (d : Dir)
    (body : Int → σ → Option σ) (b : Int → σ → σ) (s : σ) (hn : 0 ≤ n)
    (hf : n.toNat < fuel)
    (hb : ∀ i, 0 ≤ i → i < n → ∀ s1, body i s1 = some (b i s1)) :
    axis_loop fuel n d body s
      = some ((axis_order n d).foldl (fun acc i => b i acc) s) := by
  have hk : ((n.toNat : Nat) : Int) = n := Int.toNat_of_nonneg hn
  cases d
  · have hstop : (n - 1 + 1 : Int) = 0 + ((n.toNat : Nat) : Int) * 1 := by omega
    have h := forNe_steps 1 (by decide) body b n.toNat fuel 0 s hf
      (fun j hj s1 => hb _ (by omega) (by omega) s1)
    simp only [axis_loop, Dir_up, Dir_dn, Dir_inc, if_true, if_false, reduceCtorEq]
    rw [hstop, h]
    congr 2
    unfold axis_order upto
    apply List.map_congr_left
    intro j _
    simp
  · have hstop : (0 + -1 : Int) = (n - 1) + ((n.toNat : Nat) : Int) * (-1) := by omega
    have h := forNe_steps (-1) (by decide) body b n.toNat fuel (n - 1) s hf
      (fun j hj s1 => hb _ (by omega) (by omega) s1)
    simp only [axis_loop, Dir_up, Dir_dn, Dir_inc, if_true, if_false, reduceCtorEq]
    rw [hstop, h]
    congr 2
    unfold axis_order upto
    rw [← List.map_reverse, List.range_eq_range', List.reverse_range', List.map_map,
      ← List.range_eq_range']
    apply List.map_congr_left
    intro j hj
    have hj1 := List.mem_range.mp hj
    simp only [Function.comp]
    omega

theorem foldl_flatMap {α β σ : Type} (f : α → List β) (g : σ → β → σ) (l : List α) :
    ∀ s : σ, (l.flatMap f).foldl g s = l.foldl (fun acc a => (f a).foldl g acc) s := by
  induction l with
  | nil => intro s; rfl
  | cons a l ih =>
    intro s
    rw [List.flatMap_cons, List.foldl_append, List.foldl_cons, ih]

theorem foldl_product {α β σ : Type} (g : σ → α × β → σ) (l : List α) (m : List β)
    (s : σ) :
    (l.product m).foldl g s
      = l.foldl (fun acc a => m.foldl (fun acc1 b => g acc1 (a, b)) acc) s := by
  unfold List.product
  rw [foldl_flatMap]
  congr 1
  funext acc a
  rw [List.foldl_map]

theorem mem_cell_order {dims : Dimensions} {dx dy dz : Dir} {c : Int × Int × Int} :
    c ∈ cell_order dims dx dy dz ↔
      (0 ≤ c.1 ∧ c.1 < dims.nz) ∧ (0 ≤ c.2.1 ∧ c.2.1 < dims.ny) ∧
        (0 ≤ c.2.2 ∧ c.2.2 < dims.nx) := by
  obtain ⟨z, y, x⟩ := c
  simp only [cell_order, List.pair_mem_product, mem_axis_order]

theorem mem_visit_order {dims : Dimensions} {dx dy dz : Dir} {v : Int × Int × Int × Int} :
    v ∈ visit_order dims dx dy dz ↔
      (0 ≤ v.1 ∧ v.1 < dims.ne) ∧ (0 ≤ v.2.1 ∧ v.2.1 < dims.nz) ∧
        (0 ≤ v.2.2.1 ∧ v.2.2.1 < dims.ny) ∧ (0 ≤ v.2.2.2 ∧ v.2.2.2 < dims.nx) := by
  obtain ⟨e, c⟩ := v
  simp only [visit_order, List.pair_mem_product, mem_upto, mem_cell_order]

theorem nodup_upto (n : Int) : (upto n).Nodup :=
  List.Nodup.map (fun a b hab => by simpa using hab) (List.nodup_range _)

theorem nodup_axis_order (n : Int) (d : Dir) : (axis_order n d).Nodup := by
  cases d
  · exact nodup_upto n
  · exact List.nodup_reverse.mpr (nodup_upto n)

theorem nodup_cell_order (dims : Dimensions) (dx dy dz : Dir) :
    (cell_order dims dx dy dz).Nodup :=
  List.Nodup.product (nodup_axis_order _ _)
    (List.Nodup.product (nodup_axis_order _ _) (nodup_axis_order _ _))

theorem grid_loop_eq {σ : Type} (fuel : Nat) (dims : Dimensions) (dx dy dz : Dir)
    (body : Int → Int → Int → σ → σ) (s : σ)
    (hx : 0 ≤ dims.nx) (hy : 0 ≤ dims.ny) (hz : 0 ≤ dims.nz)
    (hfx : dims.nx.toNat < fuel) (hfy : dims.ny.toNat < fuel) (hfz : dims.nz.toNat < fuel) :
    grid_loop fuel dims dx dy dz body s
      = some ((cell_order dims dx dy dz).foldl
          (fun acc c => body c.1 c.2.1 c.2.2 acc) s) := by
  unfold grid_loop
  have hX : ∀ iz iy (sy : σ),
      axis_loop fuel dims.nx dx (fun ix sx => some (body iz iy ix sx)) sy
        = some ((axis_order dims.nx dx).foldl (fun acc ix => body iz iy ix acc) sy) :=
    fun iz iy sy => axis_loop_eq fuel dims.nx dx _ (fun ix sx => body iz iy ix sx) sy hx hfx
      (fun _ _ _ _ => rfl)
  have hY : ∀ iz (sz : σ),
      axis_loop fuel dims.ny dy (fun iy sy =>
          axis_loop fuel dims.nx dx (fun ix sx => some (body iz iy ix sx)) sy) sz
        = some ((axis_order dims.ny dy).foldl (fun acc iy =>
            (axis_order dims.nx dx).foldl (fun acc1 ix => body iz iy ix acc1) acc) sz) :=
    fun iz sz => axis_loop_eq fuel dims.ny dy _
      (fun iy sy => (axis_order dims.nx dx).foldl (fun acc1 ix => body iz iy ix acc1) sy)
      sz hy hfy (fun iy _ _ sy => hX iz iy sy)
  rw [axis_loop_eq fuel dims.nz dz _
      (fun iz sz => (axis_order dims.ny dy).foldl (fun acc iy =>
        (axis_order dims.nx dx).foldl (fun acc1 ix => body iz iy ix acc1) acc) sz)
      s hz hfz (fun iz _ _ sz => hY iz sz)]
  congr 1
  unfold cell_order
  rw [foldl_product]
  congr 1
  funext acc iz
  rw [foldl_product]

theorem octant_pass_eq {P : Type} [Semiring P] (X : Externals P) (fuel : Nat)
    (quan : Quantities P) (dims : Dimensions) (octant : Int) (s : State P)
    (hf : FuelCovers fuel dims) :
    octant_pass X fuel quan dims octant s = some (octant_result X quan dims octant s) := by
  obtain ⟨⟨hx, hfx⟩, ⟨hy, hfy⟩, ⟨hz, hfz⟩⟩ := hf
  unfold octant_pass energy_loop octant_result
  simp only []
  rw [forLtM_pure dims.ne _
    (fun ie se => (cell_order dims (X.Dir_x octant) (X.Dir_y octant) (X.Dir_z octant)).foldl
      (fun acc c => cell_body X quan dims octant 0 ie c.1 c.2.1 c.2.2 acc) se)
    (fun ie _ _ se => grid_loop_eq fuel dims _ _ _ _ se hx hy hz hfx hfy hfz)]
  congr 1
  rw [forLt_eq_foldl]
  unfold visit_order
  rw [foldl_product]

theorem Sweeper_sweep_eq {P : Type} [Semiring P] (X : Externals P) (fuel : Nat)
    (sweeper : Sweeper P) (vo vi : Nat → P) (quan : Quantities P) (dims : Dimensions)
    (hf : FuelCovers fuel dims) :
    Sweeper_sweep X fuel sweeper vo vi quan dims
      = some (sweep_result X sweeper vo vi quan dims) := by
  unfold Sweeper_sweep sweep_result
  exact forLtM_pure NOCTANT _ _ (fun o _ _ s => octant_pass_eq X fuel quan dims o s hf) _

theorem foldl_snoc {α : Type} (l : List α) :
    ∀ init : List α, l.foldl (fun acc a => acc ++ [a]) init = init ++ l := by
  induction l with
  | nil => intro init; simp
  | cons a l ih => intro init; rw [List.foldl_cons, ih]; simp

theorem axis_trace_eq (fuel : Nat) (n : Int) (d : Dir) (hn : 0 ≤ n) (hf : n.toNat < fuel) :
    axis_trace fuel n d = some (axis_order n d) := by
  unfold axis_trace
  rw [axis_loop_eq fuel n d _ (fun i visited => visited ++ [i]) [] hn hf (fun _ _ _ _ => rfl),
    foldl_snoc]
  rfl

theorem grid_trace_eq (fuel : Nat) (dims : Dimensions) (dx dy dz : Dir)
    (hf : FuelCovers fuel dims) :
    grid_trace fuel dims dx dy dz = some (cell_order dims dx dy dz) := by
  obtain ⟨⟨hx, hfx⟩, ⟨hy, hfy⟩, ⟨hz, hfz⟩⟩ := hf
  unfold grid_trace
  rw [grid_loop_eq fuel dims dx dy dz _ [] hx hy hz hfx hfy hfz, foldl_snoc]
  rfl

theorem cell_order_nested (dims : Dimensions) (dx dy dz : Dir) :
    cell_order dims dx dy dz
      = (axis_order dims.nz dz).flatMap (fun iz =>
          (axis_order dims.ny dy).flatMap (fun iy =>
            (axis_order dims.nx dx).map (fun ix => (iz, iy, ix)))) := by
  unfold cell_order List.product
  congr 1
  funext iz
  rw [List.map_flatMap]
  congr 1
  funext iy
  rw [List.map_map]
  rfl

/-! ## Nested counting loops and folds of writes -/

theorem forLt2_eq {σ : Type} (n1 n2 : Int) (body : Int → Int → σ → σ) (s : σ) :
    forLt n1 (fun i1 s1 => forLt n2 (fun i2 s2 => body i1 i2 s2) s1) s
      = ((upto n1).product (upto n2)).foldl (fun acc t => body t.1 t.2 acc) s := by
  simp only [forLt_eq_foldl, foldl_product]

theorem forLt5_eq {σ : Type} (n1 n2 n3 n4 n5 : Int)
    (body : Int → Int → Int → Int → Int → σ → σ) (s : σ) :
    forLt n1 (fun i1 s1 => forLt n2 (fun i2 s2 => forLt n3 (fun i3 s3 =>
        forLt n4 (fun i4 s4 => forLt n5 (fun i5 s5 => body i1 i2 i3 i4 i5 s5) s4) s3) s2) s1) s
      = ((upto n1).product ((upto n2).product ((upto n3).product
          ((upto n4).product (upto n5))))).foldl
          (fun acc t => body t.1 t.2.1 t.2.2.1 t.2.2.2.1 t.2.2.2.2 acc) s := by
  simp only [forLt_eq_foldl, foldl_product]

theorem update_fold_cons {α P : Type} (off : α → Nat) (val : α → P) (a : α) (l : List α)
    (f : Nat → P) :
    update_fold off val (a :: l) f
      = update_fold off val l (Function.update f (off a) (val a)) := rfl

theorem update_fold_val {α P : Type} (off : α → Nat) (val : α → P) (k : Nat) (v : P)
    (l : List α) :
    ∀ f : Nat → P, (∀ b ∈ l, off b = k → val b = v) →
      ((∃ b ∈ l, off b = k) ∨ f k = v) → update_fold off val l f k = v := by
  induction l with
  | nil =>
    intro f _ h
    rcases h with ⟨b, hb, _⟩ | h
    · simp at hb
    · exact h
  | cons a l ih =>
    intro f hv h
    rw [update_fold_cons]
    apply ih
    · intro b hb; exact hv b (List.mem_cons_of_mem _ hb)
    · by_cases hak : off a = k
      · right
        rw [← hak, Function.update_same]
        exact hv a (List.mem_cons_self _ _) hak
      · rcases h with ⟨b, hb, hbk⟩ | h
        · rcases List.mem_cons.mp hb with hba | hbl
          · subst hba; exact absurd hbk hak
          · exact Or.inl ⟨b, hbl, hbk⟩
        · right
          rw [Function.update_noteq (Ne.symm hak)]
          exact h

theorem update_fold_agree {α P : Type} (off : α → Nat) (val : α → P) (k : Nat)
    (l : List α) :
    ∀ f g : Nat → P, ((∃ b ∈ l, off b = k) ∨ f k = g k) →
      update_fold off val l f k = update_fold off val l g k := by
  induction l with
  | nil =>
    intro f g h
    rcases h with ⟨b, hb, _⟩ | h
    · simp at hb
    · exact h
  | cons a l ih =>
    intro f g h
    rw [update_fold_cons, update_fold_cons]
    apply ih
    by_cases hak : off a = k
    · right
      rw [← hak, Function.update_same, Function.update_same]
    · rcases h with ⟨b, hb, hbk⟩ | h
      · rcases List.mem_cons.mp hb with hba | hbl
        · subst hba; exact absurd hbk hak
        · exact Or.inl ⟨b, hbl, hbk⟩
      · right
        rw [Function.update_noteq (Ne.symm hak), Function.update_noteq (Ne.symm hak)]
        exact h

theorem accum_fold_cons {α P : Type} [Add P] (off : α → Nat) (val : α → P) (a : α)
    (l : List α) (f : Nat → P) :
    accum_fold off val (a :: l) f
      = accum_fold off val l (Function.update f (off a) (f (off a) + val a)) := rfl

theorem accum_fold_add {α P : Type} [AddCommMonoid P] (off : α → Nat) (val : α → P)
    (l : List α) :
    ∀ (f : Nat → P) (k : Nat),
      accum_fold off val l f k = f k + accum_fold off val l (fun _ => 0) k := by
  induction l with
  | nil => intro f k; simp [accum_fold]
  | cons a l ih =>
    intro f k
    rw [accum_fold_cons, accum_fold_cons, ih, ih (Function.update _ _ _)]
    by_cases hak : k = off a
    · subst hak
      simp only [Function.update_same, zero_add, add_assoc]
    · simp only [Function.update_noteq hak, zero_add]

theorem accum_fold_frame {α P : Type} [Add P] (off : α → Nat) (val : α → P) (k : Nat)
    (l : List α) :
    ∀ f : Nat → P, (∀ b ∈ l, off b ≠ k) → accum_fold off val l f k = f k := by
  induction l with
  | nil => intro f _; rfl
  | cons a l ih =>
    intro f h
    rw [accum_fold_cons, ih _ (fun b hb => h b (List.mem_cons_of_mem _ hb)),
      Function.update_noteq (Ne.symm (h a (List.mem_cons_self _ _)))]

theorem accum_fold_val {α P : Type} [Add P] (off : α → Nat) (val : α → P) (a0 : α)
    (l : List α) :
    ∀ f : Nat → P, l.Nodup → a0 ∈ l → (∀ b ∈ l, off b = off a0 → b = a0) →
      accum_fold off val l f (off a0) = f (off a0) + val a0 := by
  induction l with
  | nil => intro f _ h; simp at h
  | cons a l ih =>
    intro f hnd hmem hinj
    rw [accum_fold_cons]
    have hnd1 := List.nodup_cons.mp hnd
    by_cases haa : a = a0
    · subst haa
      rw [accum_fold_frame, Function.update_same]
      intro b hb hbk
      have := hinj b (List.mem_cons_of_mem _ hb) hbk
      subst this
      exact hnd1.1 hb
    · have hmem1 : a0 ∈ l := by
        rcases List.mem_cons.mp hmem with h | h
        · exact absurd h.symm haa
        · exact h
      rw [ih _ hnd1.2 hmem1 (fun b hb => hinj b (List.mem_cons_of_mem _ hb))]
      have hne : off a ≠ off a0 := fun h => haa (hinj a (List.mem_cons_self _ _) h)
      rw [Function.update_noteq (Ne.symm hne)]

theorem accum_fold_zero {α P : Type} [AddMonoid P] (off : α → Nat) (val : α → P)
    (l : List α) (hval : ∀ b ∈ l, val b = 0) :
    ∀ (f : Nat → P) (k : Nat), f k = 0 → accum_fold off val l f k = 0 := by
  induction l with
  | nil => intro f k h; exact h
  | cons a l ih =>
    intro f k h
    rw [accum_fold_cons]
    apply ih (fun b hb => hval b (List.mem_cons_of_mem _ hb))
    by_cases hak : k = off a
    · subst hak
      rw [Function.update_same, h, hval a (List.mem_cons_self _ _), add_zero]
    · rw [Function.update_noteq hak]
      exact h

/-- The loop `result += f im` from zero is the sum of the terms. -/
theorem forLt_sum {P : Type} [AddCommMonoid P] (n : Int) (f : Int → P) :
    forLt n (fun i result => result + f i) 0
      = ∑ j in Finset.range n.toNat, f (j : Int) := by
  unfold forLt
  generalize n.toNat = k
  induction k with
  | zero => simp
  | succ k ih =>
    rw [List.range_succ, List.foldl_append, ih, Finset.sum_range_succ]
    rfl

/-! ## The phases of a cell visit as folds of writes -/

theorem init_facexy_eq {P : Type} (X : Externals P) (dims : Dimensions) (d : Dir) (oi : Int)
    (f : Nat → P) :
    init_facexy X dims d oi f
      = update_fold
          (fun t : Int × Int × Int × Int × Int =>
            X.ref_facexy dims X.NU t.2.2.1 t.2.1 t.2.2.2.1 t.2.2.2.2 t.1 oi)
          (fun t : Int × Int × Int × Int × Int =>
            X.Quantities_init_facexy t.2.2.1 t.2.1 (if d = Dir_up then -1 else dims.nz)
              t.2.2.2.1 t.2.2.2.2 t.1 dims)
          (face_tuples X.NU dims.ny dims.nx dims.ne dims.na) f := by
  unfold init_facexy update_fold face_tuples
  exact forLt5_eq X.NU dims.ny dims.nx dims.ne dims.na
    (fun iu iy ix ie ia g => Function.update g (X.ref_facexy dims X.NU ix iy ie ia iu oi)
      (X.Quantities_init_facexy ix iy (if d = Dir_up then -1 else dims.nz) ie ia iu dims)) f

theorem init_facexz_eq {P : Type} (X : Externals P) (dims : Dimensions) (d : Dir) (oi : Int)
    (f : Nat → P) :
    init_facexz X dims d oi f
      = update_fold
          (fun t : Int × Int × Int × Int × Int =>
            X.ref_facexz dims X.NU t.2.2.1 t.2.1 t.2.2.2.1 t.2.2.2.2 t.1 oi)
          (fun t : Int × Int × Int × Int × Int =>
            X.Quantities_init_facexz t.2.2.1 (if d = Dir_up then -1 else dims.ny) t.2.1
              t.2.2.2.1 t.2.2.2.2 t.1 dims)
          (face_tuples X.NU dims.nz dims.nx dims.ne dims.na) f := by
  unfold init_facexz update_fold face_tuples
  exact forLt5_eq X.NU dims.nz dims.nx dims.ne dims.na
    (fun iu iz ix ie ia g => Function.update g (X.ref_facexz dims X.NU ix iz ie ia iu oi)
      (X.Quantities_init_facexz ix (if d = Dir_up then -1 else dims.ny) iz ie ia iu dims)) f

theorem init_faceyz_eq {P : Type} (X : Externals P) (dims : Dimensions) (d : Dir) (oi : Int)
    (f : Nat → P) :
    init_faceyz X dims d oi f
      = update_fold
          (fun t : Int × Int × Int × Int × Int =>
            X.ref_faceyz dims X.NU t.2.2.1 t.2.1 t.2.2.2.1 t.2.2.2.2 t.1 oi)
          (fun t : Int × Int × Int × Int × Int =>
            X.Quantities_init_faceyz (if d = Dir_up then -1 else dims.nx) t.2.2.1 t.2.1
              t.2.2.2.1 t.2.2.2.2 t.1 dims)
          (face_tuples X.NU dims.nz dims.ny dims.ne dims.na) f := by
  unfold init_faceyz update_fold face_tuples
  exact forLt5_eq X.NU dims.nz dims.ny dims.ne dims.na
    (fun iu iz iy ie ia g => Function.update g (X.ref_faceyz dims X.NU iy iz ie ia iu oi)
      (X.Quantities_init_faceyz (if d = Dir_up then -1 else dims.nx) iy iz ie ia iu dims)) f

theorem mem_face_tuples {nu n2 n1 ne na : Int} {t : Int × Int × Int × Int × Int} :
    t ∈ face_tuples nu n2 n1 ne na ↔
      InRange t.1 nu ∧ InRange t.2.1 n2 ∧ InRange t.2.2.1 n1 ∧ InRange t.2.2.2.1 ne ∧
        InRange t.2.2.2.2 na := by
  obtain ⟨a, b, c, d, e⟩ := t
  simp only [face_tuples, List.pair_mem_product, mem_upto, InRange]

theorem moments_to_angles_eq {P : Type} [Semiring P] (X : Externals P) (quan : Quantities P) (dims : Dimensions)
    (ix iy iz ie : Int) (s : State P) :
    moments_to_angles X quan dims ix iy iz ie s
      = { sweeper :=
            { v_local := update_fold
                (fun t : Int × Int => X.ref_v_local dims X.NU t.2 t.1)
                (fun t : Int × Int => a_from_m_row X quan dims s.vi ix iy iz ie t.2 t.1)
                ((upto X.NU).product (upto dims.na)) s.sweeper.v_local
              facexy := s.sweeper.facexy
              facexz := s.sweeper.facexz
              faceyz := s.sweeper.faceyz }
          vo := s.vo
          vi := s.vi } := by
  unfold moments_to_angles update_fold
  rw [forLt2_eq]
  exact foldl_rel
    (fun (s1 : State P) (g : Nat → P) =>
      s1 = { sweeper := { v_local := g, facexy := s.sweeper.facexy,
                          facexz := s.sweeper.facexz, faceyz := s.sweeper.faceyz }
             vo := s.vo, vi := s.vi })
    _ _ _ (fun a _ s1 g h => by subst h; rfl) s s.sweeper.v_local rfl

theorem angles_to_moments_eq {P : Type} [Semiring P] (X : Externals P) (quan : Quantities P) (dims : Dimensions)
    (ix iy iz ie : Int) (s : State P) :
    angles_to_moments X quan dims ix iy iz ie s
      = { sweeper := s.sweeper
          vo := accum_fold
            (fun t : Int × Int => X.ref_state dims X.NU ix iy iz ie t.2 t.1)
            (fun t : Int × Int => m_from_a_row X quan dims s.sweeper.v_local t.2 t.1)
            ((upto X.NU).product (upto dims.nm)) s.vo
          vi := s.vi } := by
  unfold angles_to_moments accum_fold
  rw [forLt2_eq]
  exact foldl_rel
    (fun (s1 : State P) (g : Nat → P) => s1 = { sweeper := s.sweeper, vo := g, vi := s.vi })
    _ _ _ (fun a _ s1 g h => by subst h; rfl) s s.vo rfl

/-! ## The accessors of the concrete instance -/

theorem ex_vlocal_inj (b : Int) : VLocalInj (exExternals b) exDims2 := by
  intro ia iu ia1 iu1 h1 h2 h3 h4 _
  simp only [InRange, exExternals, exDims2] at h1 h2 h3 h4
  omega

theorem ex_state_cell_inj (b : Int) (ix iy iz ie : Int) :
    StateCellInj (exExternals b) exDims2 ix iy iz ie := by
  intro im iu im1 iu1 h1 h2 h3 h4 _
  simp only [InRange, exExternals, exDims2] at h1 h2 h3 h4
  omega

theorem ex_facexy_inj (b : Int) : FaceXYInj (exExternals b) exDims2 := by
  intro ix iy ie ia iu ix1 iy1 ie1 ia1 iu1 h1 h2 h3 h4 h5 h6 h7 h8 h9 h10 h
  simp only [InRange, exExternals, exDims2] at h1 h2 h3 h4 h5 h6 h7 h8 h9 h10 h
  omega

theorem ex_facexz_inj (b : Int) : FaceXZInj (exExternals b) exDims2 := by
  intro ix iy ie ia iu ix1 iy1 ie1 ia1 iu1 h1 h2 h3 h4 h5 h6 h7 h8 h9 h10 h
  simp only [InRange, exExternals, exDims2] at h1 h2 h3 h4 h5 h6 h7 h8 h9 h10 h
  omega

theorem ex_faceyz_inj (b : Int) : FaceYZInj (exExternals b) exDims2 := by
  intro ix iy ie ia iu ix1 iy1 ie1 ia1 iu1 h1 h2 h3 h4 h5 h6 h7 h8 h9 h10 h
  simp only [InRange, exExternals, exDims2] at h1 h2 h3 h4 h5 h6 h7 h8 h9 h10 h
  omega

theorem ex_fuel : FuelCovers 3 exDims2 := by
  unfold FuelCovers exDims2
  decide

theorem ex_solve_local (b : Int) (quan : Quantities Int) :
    SolveLocal (exExternals b) quan exDims2 := by
  intro a c ix iy iz ie octant hx hy hz he _ hag
  obtain ⟨hv, hxy, hxz, hyz⟩ := hag
  have r0 : InRange 0 exDims2.na := by simp [InRange, exDims2]
  have r1 : InRange 0 (exExternals b).NU := by simp [InRange, exExternals]
  have e1 := hv _ ⟨0, 0, r0, r1, rfl⟩
  have e2 := hxy _ ⟨ix, iy, ie, 0, 0, hx, hy, he, r0, r1, rfl⟩
  have e3 := hxz _ ⟨ix, iz, ie, 0, 0, hx, hz, he, r0, r1, rfl⟩
  have e4 := hyz _ ⟨iy, iz, ie, 0, 0, hy, hz, he, r0, r1, rfl⟩
  simp only [exExternals, exDims2] at e1 e2 e3 e4
  refine ⟨?_, ?_, ?_, ?_⟩
  · intro k hk
    have := hv k hk
    simp only [exExternals, exDims2, Function.update_apply]
    rw [e1, e2, e3, e4, this]
  · intro k hk
    have := hxy k hk
    simp only [exExternals, exDims2, Function.update_apply]
    rw [e1, e2, e3, e4, this]
  · intro k hk
    have := hxz k hk
    simp only [exExternals, exDims2, Function.update_apply]
    rw [e1, e2, e3, e4, this]
  · intro k hk
    have := hyz k hk
    simp only [exExternals, exDims2, Function.update_apply]
    rw [e1, e2, e3, e4, this]

theorem ex_solve_zero (b : Int) (quan : Quantities Int) (dims : Dimensions)
    (hna : 0 < dims.na) : SolveZero (exExternals b) quan dims := by
  intro a ix iy iz ie octant hx hy hz he _ hz0
  obtain ⟨hv, hxy, hxz, hyz⟩ := hz0
  have r0 : InRange 0 dims.na := ⟨le_refl 0, hna⟩
  have r1 : InRange 0 (exExternals b).NU := by simp [InRange, exExternals]
  have e1 := hv _ ⟨0, 0, r0, r1, rfl⟩
  have e2 := hxy _ ⟨ix, iy, ie, 0, 0, hx, hy, he, r0, r1, rfl⟩
  have e3 := hxz _ ⟨ix, iz, ie, 0, 0, hx, hz, he, r0, r1, rfl⟩
  have e4 := hyz _ ⟨iy, iz, ie, 0, 0, hy, hz, he, r0, r1, rfl⟩
  simp only [exExternals] at e1 e2 e3 e4
  refine ⟨?_, ?_, ?_, ?_⟩
  · intro k hk
    have := hv k hk
    simp only [exExternals, Function.update_apply]
    rw [e1, e2, e3, e4, this]
    simp
  · intro k hk
    have := hxy k hk
    simp only [exExternals, Function.update_apply]
    rw [e1, e2, e3, e4, this]
    simp
  · intro k hk
    have := hxz k hk
    simp only [exExternals, Function.update_apply]
    rw [e1, e2, e3, e4, this]
    simp
  · intro k hk
    have := hyz k hk
    simp only [exExternals, Function.update_apply]
    rw [e1, e2, e3, e4, this]
    simp

theorem ex_solve_writes_own (b : Int) (quan : Quantities Int) :
    SolveWritesOwn (exExternals b) quan exDims2 := by
  intro a ix iy iz ie octant _ _ _ _ _
  have r0 : InRange 0 exDims2.na := by simp [InRange, exDims2]
  have r1 : InRange 0 (exExternals b).NU := by simp [InRange, exExternals]
  refine ⟨fun k hk => ?_, fun k hk => ?_, fun k hk => ?_⟩
  · have h := hk 0 0 r0 r1
    simp only [exExternals, exDims2] at h ⊢
    exact Function.update_noteq (Ne.symm h) _ _
  · have h := hk 0 0 r0 r1
    simp only [exExternals, exDims2] at h ⊢
    exact Function.update_noteq (Ne.symm h) _ _
  · have h := hk 0 0 r0 r1
    simp only [exExternals, exDims2] at h ⊢
    exact Function.update_noteq (Ne.symm h) _ _

theorem ex_boundary_zero : BoundaryZero (exExternals 0) := by
  intro _ _ _ _ _ _ _
  exact ⟨rfl, rfl, rfl⟩

/-! ## Values written by the phases -/

theorem init_facexy_val {P : Type} (X : Externals P) (dims : Dimensions)
    (hinj : FaceXYInj X dims) (d : Dir) (f : Nat → P) (ix iy ie ia iu : Int)
    (hix : InRange ix dims.nx) (hiy : InRange iy dims.ny) (hie : InRange ie dims.ne)
    (hia : InRange ia dims.na) (hiu : InRange iu X.NU) :
    init_facexy X dims d 0 f (X.ref_facexy dims X.NU ix iy ie ia iu 0)
      = X.Quantities_init_facexy ix iy (if d = Dir_up then -1 else dims.nz) ie ia iu dims := by
  rw [init_facexy_eq]
  apply update_fold_val
  · rintro ⟨u, y, x, e, a⟩ hb hk
    obtain ⟨h1, h2, h3, h4, h5⟩ := mem_face_tuples.mp hb
    obtain ⟨rfl, rfl, rfl, rfl, rfl⟩ := hinj _ _ _ _ _ _ _ _ _ _ h3 h2 h4 h5 h1 hix hiy hie hia hiu hk
    rfl
  · exact Or.inl ⟨(iu, iy, ix, ie, ia), mem_face_tuples.mpr ⟨hiu, hiy, hix, hie, hia⟩, rfl⟩

theorem init_facexz_val {P : Type} (X : Externals P) (dims : Dimensions)
    (hinj : FaceXZInj X dims) (d : Dir) (f : Nat → P) (ix iz ie ia iu : Int)
    (hix : InRange ix dims.nx) (hiz : InRange iz dims.nz) (hie : InRange ie dims.ne)
    (hia : InRange ia dims.na) (hiu : InRange iu X.NU) :
    init_facexz X dims d 0 f (X.ref_facexz dims X.NU ix iz ie ia iu 0)
      = X.Quantities_init_facexz ix (if d = Dir_up then -1 else dims.ny) iz ie ia iu dims := by
  rw [init_facexz_eq]
  apply update_fold_val
  · rintro ⟨u, z, x, e, a⟩ hb hk
    obtain ⟨h1, h2, h3, h4, h5⟩ := mem_face_tuples.mp hb
    obtain ⟨rfl, rfl, rfl, rfl, rfl⟩ := hinj _ _ _ _ _ _ _ _ _ _ h3 h2 h4 h5 h1 hix hiz hie hia hiu hk
    rfl
  · exact Or.inl ⟨(iu, iz, ix, ie, ia), mem_face_tuples.mpr ⟨hiu, hiz, hix, hie, hia⟩, rfl⟩

theorem init_faceyz_val {P : Type} (X : Externals P) (dims : Dimensions)
    (hinj : FaceYZInj X dims) (d : Dir) (f : Nat → P) (iy iz ie ia iu : Int)
    (hiy : InRange iy dims.ny) (hiz : InRange iz dims.nz) (hie : InRange ie dims.ne)
    (hia : InRange ia dims.na) (hiu : InRange iu X.NU) :
    init_faceyz X dims d 0 f (X.ref_faceyz dims X.NU iy iz ie ia iu 0)
      = X.Quantities_init_faceyz (if d = Dir_up then -1 else dims.nx) iy iz ie ia iu dims := by
  rw [init_faceyz_eq]
  apply update_fold_val
  · rintro ⟨u, z, y, e, a⟩ hb hk
    obtain ⟨h1, h2, h3, h4, h5⟩ := mem_face_tuples.mp hb
    obtain ⟨rfl, rfl, rfl, rfl, rfl⟩ := hinj _ _ _ _ _ _ _ _ _ _ h3 h2 h4 h5 h1 hiy hiz hie hia hiu hk
    rfl
  · exact Or.inl ⟨(iu, iz, iy, ie, ia), mem_face_tuples.mpr ⟨hiu, hiz, hiy, hie, hia⟩, rfl⟩

theorem mem_pair_upto {n1 n2 : Int} {t : Int × Int} :
    t ∈ (upto n1).product (upto n2) ↔ InRange t.1 n1 ∧ InRange t.2 n2 := by
  obtain ⟨a, b⟩ := t
  simp only [List.pair_mem_product, mem_upto, InRange]

theorem a_from_m_row_sum {P : Type} [Semiring P] (X : Externals P) (quan : Quantities P)
    (dims : Dimensions) (vi : Nat → P) (ix iy iz ie ia iu : Int) :
    a_from_m_row X quan dims vi ix iy iz ie ia iu
      = ∑ j in Finset.range dims.nm.toNat,
          quan.a_from_m (X.ref_a_from_m dims (j : Int) ia) *
            vi (X.ref_state dims X.NU ix iy iz ie (j : Int) iu) := by
  unfold a_from_m_row
  exact forLt_sum dims.nm _

theorem m_from_a_row_sum {P : Type} [Semiring P] (X : Externals P) (quan : Quantities P)
    (dims : Dimensions) (v_local : Nat → P) (im iu : Int) :
    m_from_a_row X quan dims v_local im iu
      = ∑ j in Finset.range dims.na.toNat,
          quan.m_from_a (X.ref_m_from_a dims im (j : Int)) *
            v_local (X.ref_v_local dims X.NU (j : Int) iu) := by
  unfold m_from_a_row
  exact forLt_sum dims.na _

theorem moments_to_angles_val {P : Type} [Semiring P] (X : Externals P)
    (quan : Quantities P) (dims : Dimensions) (hinj : VLocalInj X dims)
    (ix iy iz ie : Int) (s : State P) (ia iu : Int) (hia : InRange ia dims.na)
    (hiu : InRange iu X.NU) :
    (moments_to_angles X quan dims ix iy iz ie s).sweeper.v_local
        (X.ref_v_local dims X.NU ia iu)
      = a_from_m_row X quan dims s.vi ix iy iz ie ia iu := by
  rw [moments_to_angles_eq]
  apply update_fold_val
  · rintro ⟨u, a⟩ hb hk
    obtain ⟨h1, h2⟩ := mem_pair_upto.mp hb
    obtain ⟨rfl, rfl⟩ := hinj _ _ _ _ h2 h1 hia hiu hk
    rfl
  · exact Or.inl ⟨(iu, ia), mem_pair_upto.mpr ⟨hiu, hia⟩, rfl⟩

/-! ## Independence of the scratch state -/

theorem accum_fold_congr {α P : Type} [Add P] (off : α → Nat) (val1 val2 : α → P)
    (l : List α) (h : ∀ b ∈ l, val1 b = val2 b) :
    ∀ f : Nat → P, accum_fold off val1 l f = accum_fold off val2 l f := by
  induction l with
  | nil => intro f; rfl
  | cons a l ih =>
    intro f
    rw [accum_fold_cons, accum_fold_cons, h a (List.mem_cons_self _ _),
      ih (fun b hb => h b (List.mem_cons_of_mem _ hb))]

theorem m_from_a_row_congr {P : Type} [Semiring P] (X : Externals P) (quan : Quantities P)
    (dims : Dimensions) (v w : Nat → P) (im iu : Int)
    (h : ∀ ia, InRange ia dims.na →
      v (X.ref_v_local dims X.NU ia iu) = w (X.ref_v_local dims X.NU ia iu)) :
    m_from_a_row X quan dims v im iu = m_from_a_row X quan dims w im iu := by
  unfold m_from_a_row
  apply forLt_rel (fun (r1 r2 : P) => r1 = r2) dims.na _ _ _ 0 0 rfl
  intro ia h0 h1 r1 r2 hr
  rw [hr, h ia ⟨h0, h1⟩]

theorem init_faces_agree {P : Type} (X : Externals P) (dims : Dimensions)
    (dx dy dz : Dir) (s t : State P) :
    FacesAgree X dims (init_faces X dims dx dy dz 0 s).sweeper
      (init_faces X dims dx dy dz 0 t).sweeper := by
  refine ⟨?_, ?_, ?_⟩
  · rintro k ⟨ix, iy, ie, ia, iu, h1, h2, h3, h4, h5, rfl⟩
    show init_facexy X dims dz 0 s.sweeper.facexy _ = init_facexy X dims dz 0 t.sweeper.facexy _
    rw [init_facexy_eq, init_facexy_eq]
    apply update_fold_agree
    exact Or.inl ⟨(iu, iy, ix, ie, ia), mem_face_tuples.mpr ⟨h5, h2, h1, h3, h4⟩, rfl⟩
  · rintro k ⟨ix, iz, ie, ia, iu, h1, h2, h3, h4, h5, rfl⟩
    show init_facexz X dims dy 0 s.sweeper.facexz _ = init_facexz X dims dy 0 t.sweeper.facexz _
    rw [init_facexz_eq, init_facexz_eq]
    apply update_fold_agree
    exact Or.inl ⟨(iu, iz, ix, ie, ia), mem_face_tuples.mpr ⟨h5, h2, h1, h3, h4⟩, rfl⟩
  · rintro k ⟨iy, iz, ie, ia, iu, h1, h2, h3, h4, h5, rfl⟩
    show init_faceyz X dims dx 0 s.sweeper.faceyz _ = init_faceyz X dims dx 0 t.sweeper.faceyz _
    rw [init_faceyz_eq, init_faceyz_eq]
    apply update_fold_agree
    exact Or.inl ⟨(iu, iz, iy, ie, ia), mem_face_tuples.mpr ⟨h5, h2, h1, h3, h4⟩, rfl⟩

/-- The relation kept between two runs that differ in their scratch state
only: same fields, and face buffers that agree on their allocated slots. -/
theorem cell_body_agree {P : Type} [Semiring P] (X : Externals P) (quan : Quantities P)
    (dims : Dimensions) (hsolve : SolveLocal X quan dims) (octant ie iz iy ix : Int)
    (ho : InRange octant NOCTANT) (hie : InRange ie dims.ne) (hiz : InRange iz dims.nz)
    (hiy : InRange iy dims.ny) (hix : InRange ix dims.nx) (s t : State P)
    (hvo : s.vo = t.vo) (hvi : s.vi = t.vi) (hfa : FacesAgree X dims s.sweeper t.sweeper) :
    (cell_body X quan dims octant 0 ie iz iy ix s).vo
        = (cell_body X quan dims octant 0 ie iz iy ix t).vo ∧
      (cell_body X quan dims octant 0 ie iz iy ix s).vi
        = (cell_body X quan dims octant 0 ie iz iy ix t).vi ∧
      FacesAgree X dims (cell_body X quan dims octant 0 ie iz iy ix s).sweeper
        (cell_body X quan dims octant 0 ie iz iy ix t).sweeper := by
  have h1 : SweeperAgree X dims (moments_to_angles X quan dims ix iy iz ie s).sweeper
      (moments_to_angles X quan dims ix iy iz ie t).sweeper := by
    rw [moments_to_angles_eq, moments_to_angles_eq]
    refine ⟨?_, hfa⟩
    rintro k ⟨ia, iu, h1, h2, rfl⟩
    simp only
    rw [hvi]
    apply update_fold_agree
    exact Or.inl ⟨(iu, ia), mem_pair_upto.mpr ⟨h2, h1⟩, rfl⟩
  have h2 := hsolve _ _ ix iy iz ie octant hix hiy hiz hie ho h1
  have hvo1 : (moments_to_angles X quan dims ix iy iz ie s).vo = s.vo := by
    rw [moments_to_angles_eq]
  have hvo2 : (moments_to_angles X quan dims ix iy iz ie t).vo = t.vo := by
    rw [moments_to_angles_eq]
  have hvi1 : (moments_to_angles X quan dims ix iy iz ie s).vi = s.vi := by
    rw [moments_to_angles_eq]
  have hvi2 : (moments_to_angles X quan dims ix iy iz ie t).vi = t.vi := by
    rw [moments_to_angles_eq]
  unfold cell_body
  rw [angles_to_moments_eq, angles_to_moments_eq]
  simp only [solve_step]
  refine ⟨?_, ?_, h2.2⟩
  · rw [hvo1, hvo2, hvo]
    apply accum_fold_congr
    rintro ⟨u, m⟩ hb
    obtain ⟨hu, _⟩ := mem_pair_upto.mp hb
    apply m_from_a_row_congr
    intro ia hia
    exact h2.1 _ ⟨ia, u, hia, hu, rfl⟩
  · rw [hvi1, hvi2, hvi]

theorem octant_result_agree {P : Type} [Semiring P] (X : Externals P)
    (quan : Quantities P) (dims : Dimensions) (hsolve : SolveLocal X quan dims)
    (octant : Int) (ho : InRange octant NOCTANT) (s t : State P)
    (hvo : s.vo = t.vo) (hvi : s.vi = t.vi) :
    (octant_result X quan dims octant s).vo = (octant_result X quan dims octant t).vo ∧
      (octant_result X quan dims octant s).vi = (octant_result X quan dims octant t).vi := by
  have h := foldl_rel
    (fun (s1 t1 : State P) => s1.vo = t1.vo ∧ s1.vi = t1.vi ∧
      FacesAgree X dims s1.sweeper t1.sweeper)
    (fun acc v => cell_body X quan dims octant 0 v.1 v.2.1 v.2.2.1 v.2.2.2 acc)
    (fun acc v => cell_body X quan dims octant 0 v.1 v.2.1 v.2.2.1 v.2.2.2 acc)
    (visit_order dims (X.Dir_x octant) (X.Dir_y octant) (X.Dir_z octant))
    (fun v hv s1 t1 h1 => by
      obtain ⟨he, hz, hy, hx⟩ := mem_visit_order.mp hv
      exact cell_body_agree X quan dims hsolve octant v.1 v.2.1 v.2.2.1 v.2.2.2 ho he hz hy hx
        s1 t1 h1.1 h1.2.1 h1.2.2)
    (init_faces X dims (X.Dir_x octant) (X.Dir_y octant) (X.Dir_z octant) 0 s)
    (init_faces X dims (X.Dir_x octant) (X.Dir_y octant) (X.Dir_z octant) 0 t)
    ⟨hvo, hvi, init_faces_agree X dims _ _ _ s t⟩
  exact ⟨h.1, h.2.1⟩

theorem octant_result_vi {P : Type} [Semiring P] (X : Externals P) (quan : Quantities P)
    (dims : Dimensions) (octant : Int) (s : State P) :
    (octant_result X quan dims octant s).vi = s.vi := by
  unfold octant_result
  apply foldl_inv (fun s1 : State P => s1.vi = s.vi)
  · intro v _ s1 h1
    unfold cell_body
    rw [angles_to_moments_eq]
    simp only [solve_step]
    rw [moments_to_angles_eq]
    exact h1
  · rfl

/-! ## Additivity of the accumulation -/

theorem cell_body_add {P : Type} [Semiring P] (X : Externals P) (quan : Quantities P)
    (dims : Dimensions) (octant ie iz iy ix : Int) (d : Nat → P) (s t : State P)
    (hsw : s.sweeper = t.sweeper) (hvi : s.vi = t.vi) (hvo : ∀ k, s.vo k = d k + t.vo k) :
    (cell_body X quan dims octant 0 ie iz iy ix s).sweeper
        = (cell_body X quan dims octant 0 ie iz iy ix t).sweeper ∧
      (cell_body X quan dims octant 0 ie iz iy ix s).vi
        = (cell_body X quan dims octant 0 ie iz iy ix t).vi ∧
      ∀ k, (cell_body X quan dims octant 0 ie iz iy ix s).vo k
        = d k + (cell_body X quan dims octant 0 ie iz iy ix t).vo k := by
  obtain ⟨sws, vos, vis⟩ := s
  obtain ⟨swt, vot, vit⟩ := t
  simp only at hsw hvi hvo
  subst hsw hvi
  unfold cell_body
  rw [angles_to_moments_eq, angles_to_moments_eq]
  simp only [solve_step]
  rw [moments_to_angles_eq, moments_to_angles_eq]
  refine ⟨rfl, rfl, ?_⟩
  intro k
  simp only
  rw [accum_fold_add _ _ _ vos, accum_fold_add _ _ _ vot, hvo k, add_assoc]

theorem octant_result_add {P : Type} [Semiring P] (X : Externals P) (quan : Quantities P)
    (dims : Dimensions) (octant : Int) (s : State P) (k : Nat) :
    (octant_result X quan dims octant s).vo k
      = s.vo k + (octant_result X quan dims octant
          { sweeper := s.sweeper, vo := fun _ => 0, vi := s.vi }).vo k := by
  have h := foldl_rel
    (fun (s1 t1 : State P) => s1.sweeper = t1.sweeper ∧ s1.vi = t1.vi ∧
      ∀ j, s1.vo j = s.vo j + t1.vo j)
    (fun acc v => cell_body X quan dims octant 0 v.1 v.2.1 v.2.2.1 v.2.2.2 acc)
    (fun acc v => cell_body X quan dims octant 0 v.1 v.2.1 v.2.2.1 v.2.2.2 acc)
    (visit_order dims (X.Dir_x octant) (X.Dir_y octant) (X.Dir_z octant))
    (fun v _ s1 t1 h1 =>
      cell_body_add X quan dims octant v.1 v.2.1 v.2.2.1 v.2.2.2 s.vo s1 t1 h1.1 h1.2.1 h1.2.2)
    (init_faces X dims (X.Dir_x octant) (X.Dir_y octant) (X.Dir_z octant) 0 s)
    (init_faces X dims (X.Dir_x octant) (X.Dir_y octant) (X.Dir_z octant) 0
      { sweeper := s.sweeper, vo := fun _ => 0, vi := s.vi })
    ⟨rfl, rfl, fun j => (add_zero _).symm⟩
  exact h.2.2 k

/-- The output field after the first `m` octants is the sum of the fields
obtained from the single passes of these octants. -/
theorem sweep_prefix_sum {P : Type} [Semiring P] (X : Externals P) (quan : Quantities P)
    (dims : Dimensions) (hsolve : SolveLocal X quan dims) (sweeper : Sweeper P)
    (vi : Nat → P) (scratch : Nat → Sweeper P) :
    ∀ m : Nat, m ≤ 8 →
      ((List.range m).foldl (fun (acc : State P) (i : Nat) =>
          octant_result X quan dims (Int.ofNat i) acc)
          { sweeper := sweeper, vo := fun _ => 0, vi := vi }).vi = vi ∧
      ∀ k : Nat,
        ((List.range m).foldl (fun (acc : State P) (i : Nat) =>
            octant_result X quan dims (Int.ofNat i) acc)
            { sweeper := sweeper, vo := fun _ => 0, vi := vi }).vo k
          = ∑ o in Finset.range m,
              (octant_result X quan dims (o : Int)
                { sweeper := scratch o, vo := fun _ => 0, vi := vi }).vo k := by
  intro m
  induction m with
  | zero => intro _; exact ⟨rfl, fun k => by simp⟩
  | succ m ih =>
    intro hm
    obtain ⟨ihvi, ihvo⟩ := ih (by omega)
    rw [List.range_succ, List.foldl_append]
    simp only [List.foldl_cons, List.foldl_nil]
    refine ⟨?_, ?_⟩
    · rw [octant_result_vi, ihvi]
    · intro k
      rw [octant_result_add, ihvo k, Finset.sum_range_succ]
      congr 1
      have hag := octant_result_agree X quan dims hsolve (Int.ofNat m)
        ⟨Int.ofNat_nonneg m, by unfold NOCTANT; simp only [Int.ofNat_eq_coe]; omega⟩
        { sweeper := ((List.range m).foldl (fun (acc : State P) (i : Nat) =>
              octant_result X quan dims (Int.ofNat i) acc)
              { sweeper := sweeper, vo := fun _ => 0, vi := vi }).sweeper
          vo := fun _ => 0
          vi := ((List.range m).foldl (fun (acc : State P) (i : Nat) =>
              octant_result X quan dims (Int.ofNat i) acc)
              { sweeper := sweeper, vo := fun _ => 0, vi := vi }).vi }
        { sweeper := scratch m, vo := fun _ => 0, vi := vi } rfl ihvi
      exact congrFun hag.1 k

/-! ## Propagation of zero -/

theorem cell_body_zero {P : Type} [Semiring P] (X : Externals P) (quan : Quantities P)
    (dims : Dimensions) (hsolve : SolveZero X quan dims) (octant ie iz iy ix : Int)
    (ho : InRange octant NOCTANT) (hie : InRange ie dims.ne) (hiz : InRange iz dims.nz)
    (hiy : InRange iy dims.ny) (hix : InRange ix dims.nx) (s : State P)
    (hvo : ∀ k, s.vo k = 0) (hvi : ∀ k, s.vi k = 0)
    (hfa : (∀ k, AllocXY X dims k → s.sweeper.facexy k = 0) ∧
      (∀ k, AllocXZ X dims k → s.sweeper.facexz k = 0) ∧
      (∀ k, AllocYZ X dims k → s.sweeper.faceyz k = 0)) :
    (∀ k, (cell_body X quan dims octant 0 ie iz iy ix s).vo k = 0) ∧
      (∀ k, (cell_body X quan dims octant 0 ie iz iy ix s).vi k = 0) ∧
      ZeroOnAlloc X dims (cell_body X quan dims octant 0 ie iz iy ix s).sweeper := by
  have h1 : ZeroOnAlloc X dims (moments_to_angles X quan dims ix iy iz ie s).sweeper := by
    rw [moments_to_angles_eq]
    refine ⟨?_, hfa⟩
    rintro k ⟨ia, iu, h1, h2, rfl⟩
    apply update_fold_val
    · rintro ⟨u, a⟩ _ _
      simp only
      rw [a_from_m_row_sum]
      apply Finset.sum_eq_zero
      intro j _
      rw [hvi, mul_zero]
    · exact Or.inl ⟨(iu, ia), mem_pair_upto.mpr ⟨h2, h1⟩, rfl⟩
  have h2 := hsolve _ ix iy iz ie octant hix hiy hiz hie ho h1
  have hvo1 : (moments_to_angles X quan dims ix iy iz ie s).vo = s.vo := by
    rw [moments_to_angles_eq]
  have hvi1 : (moments_to_angles X quan dims ix iy iz ie s).vi = s.vi := by
    rw [moments_to_angles_eq]
  unfold cell_body
  rw [angles_to_moments_eq]
  simp only [solve_step]
  refine ⟨?_, ?_, h2⟩
  · intro k
    apply accum_fold_zero
    · rintro ⟨u, m⟩ hb
      obtain ⟨hu, _⟩ := mem_pair_upto.mp hb
      simp only
      rw [m_from_a_row_sum]
      apply Finset.sum_eq_zero
      intro j hj
      have hj1 := Finset.mem_range.mp hj
      rw [h2.1 _ ⟨(j : Int), u, ⟨by omega, by omega⟩, hu, rfl⟩, mul_zero]
    · rw [hvo1]; exact hvo k
  · intro k
    rw [hvi1]; exact hvi k

theorem octant_result_zero {P : Type} [Semiring P] (X : Externals P) (quan : Quantities P)
    (dims : Dimensions) (hb : BoundaryZero X) (hsolve : SolveZero X quan dims)
    (octant : Int) (ho : InRange octant NOCTANT) (s : State P)
    (hvo : ∀ k, s.vo k = 0) (hvi : ∀ k, s.vi k = 0) :
    (∀ k, (octant_result X quan dims octant s).vo k = 0) ∧
      (∀ k, (octant_result X quan dims octant s).vi k = 0) := by
  have h := foldl_inv
    (fun (s1 : State P) => (∀ k, s1.vo k = 0) ∧ (∀ k, s1.vi k = 0) ∧
      (∀ k, AllocXY X dims k → s1.sweeper.facexy k = 0) ∧
      (∀ k, AllocXZ X dims k → s1.sweeper.facexz k = 0) ∧
      (∀ k, AllocYZ X dims k → s1.sweeper.faceyz k = 0))
    (fun acc v => cell_body X quan dims octant 0 v.1 v.2.1 v.2.2.1 v.2.2.2 acc)
    (visit_order dims (X.Dir_x octant) (X.Dir_y octant) (X.Dir_z octant))
    (fun v hv s1 h1 => by
      obtain ⟨he, hz, hy, hx⟩ := mem_visit_order.mp hv
      have := cell_body_zero X quan dims hsolve octant v.1 v.2.1 v.2.2.1 v.2.2.2 ho he hz hy hx
        s1 h1.1 h1.2.1 h1.2.2
      exact ⟨this.1, this.2.1, this.2.2.2⟩)
    (init_faces X dims (X.Dir_x octant) (X.Dir_y octant) (X.Dir_z octant) 0 s)
    (by
      refine ⟨hvo, hvi, ?_, ?_, ?_⟩
      · rintro k ⟨ix, iy, ie, ia, iu, h1, h2, h3, h4, h5, rfl⟩
        show init_facexy X dims _ 0 s.sweeper.facexy _ = 0
        rw [init_facexy_eq]
        apply update_fold_val
        · intro t _ _
          exact (hb _ _ _ _ _ _ _).1
        · exact Or.inl ⟨(iu, iy, ix, ie, ia), mem_face_tuples.mpr ⟨h5, h2, h1, h3, h4⟩, rfl⟩
      · rintro k ⟨ix, iz, ie, ia, iu, h1, h2, h3, h4, h5, rfl⟩
        show init_facexz X dims _ 0 s.sweeper.facexz _ = 0
        rw [init_facexz_eq]
        apply update_fold_val
        · intro t _ _
          exact (hb _ _ _ _ _ _ _).2.1
        · exact Or.inl ⟨(iu, iz, ix, ie, ia), mem_face_tuples.mpr ⟨h5, h2, h1, h3, h4⟩, rfl⟩
      · rintro k ⟨iy, iz, ie, ia, iu, h1, h2, h3, h4, h5, rfl⟩
        show init_faceyz X dims _ 0 s.sweeper.faceyz _ = 0
        rw [init_faceyz_eq]
        apply update_fold_val
        · intro t _ _
          exact (hb _ _ _ _ _ _ _).2.2
        · exact Or.inl ⟨(iu, iz, iy, ie, ia), mem_face_tuples.mpr ⟨h5, h2, h1, h3, h4⟩, rfl⟩)
  exact ⟨h.1, h.2.1⟩

/-! ## Order of the visits and the last write to a slot -/

theorem pairwise_product_lex {α β : Type} (Ra : α → α → Prop) (Rb : β → β → Prop)
    (l : List α) (m : List β) (hl : l.Pairwise Ra) (hm : m.Pairwise Rb) :
    (l.product m).Pairwise (fun p q => Ra p.1 q.1 ∨ (p.1 = q.1 ∧ Rb p.2 q.2)) := by
  unfold List.product
  rw [List.pairwise_flatMap]
  constructor
  · intro a _
    rw [List.pairwise_map]
    exact hm.imp (fun h => Or.inr ⟨rfl, h⟩)
  · apply hl.imp
    intro a1 a2 h x hx y hy
    obtain ⟨b1, _, rfl⟩ := List.mem_map.mp hx
    obtain ⟨b2, _, rfl⟩ := List.mem_map.mp hy
    exact Or.inl h

theorem pairwise_upto (n : Int) : (upto n).Pairwise (fun a b => a < b) := by
  unfold upto
  rw [List.pairwise_map]
  exact (List.pairwise_lt_range n.toNat).imp (fun h => by omega)

theorem pairwise_axis_order (n : Int) (d : Dir) :
    (axis_order n d).Pairwise (fun a b => Dir_inc d * a < Dir_inc d * b) := by
  cases d
  · exact (pairwise_upto n).imp (fun h => by simp only [Dir_inc]; omega)
  · unfold axis_order
    rw [List.pairwise_reverse]
    exact (pairwise_upto n).imp (fun h => by simp only [Dir_inc]; omega)

theorem pairwise_visit_order (dims : Dimensions) (dx dy dz : Dir) :
    (visit_order dims dx dy dz).Pairwise (visit_lt dx dy dz) :=
  pairwise_product_lex _ _ _ _ (pairwise_upto dims.ne)
    (pairwise_product_lex _ _ _ _ (pairwise_axis_order dims.nz dz)
      (pairwise_product_lex _ _ _ _ (pairwise_axis_order dims.ny dy)
        (pairwise_axis_order dims.nx dx)))

theorem pairwise_getElem? {V : Type} {R : V → V → Prop} {l : List V} (h : l.Pairwise R)
    {i j : Nat} {a b : V} (hij : i < j) (hi : l[i]? = some a) (hj : l[j]? = some b) :
    R a b := by
  obtain ⟨hi1, rfl⟩ := List.getElem?_eq_some.mp hi
  obtain ⟨hj1, rfl⟩ := List.getElem?_eq_some.mp hj
  exact List.pairwise_iff_getElem.mp h i j hi1 hj1 hij

theorem take_succ_of_getElem? {V : Type} (l : List V) (k : Nat) (v : V)
    (h : l[k]? = some v) : l.take (k + 1) = l.take k ++ [v] := by
  rw [List.take_succ, h]
  rfl

theorem foldl_take_frame {σ V Q : Type} (step : σ → V → σ) (val : σ → Q) (l : List V)
    (s0 : σ) (own : V → Prop)
    (hframe : ∀ v ∈ l, ¬ own v → ∀ s, val (step s v) = val s) (j : Nat) :
    ∀ k, j ≤ k → (∀ i w, j ≤ i → i < k → l[i]? = some w → ¬ own w) →
      val ((l.take k).foldl step s0) = val ((l.take j).foldl step s0) := by
  intro k
  induction k with
  | zero =>
    intro hj _
    have : j = 0 := by omega
    subst this
    rfl
  | succ k ih =>
    intro hj hno
    by_cases hjk : j = k + 1
    · subst hjk; rfl
    · have hjk1 : j ≤ k := by omega
      have ih1 := ih hjk1 (fun i w h1 h2 h3 => hno i w h1 (by omega) h3)
      rw [← ih1, List.take_succ]
      cases hk : l[k]? with
      | none => simp
      | some w =>
        simp only [Option.toList, List.foldl_append, List.foldl_cons, List.foldl_nil]
        exact hframe w (List.getElem?_mem hk) (hno k w hjk1 (by omega) hk) _

/-- Before the first visit that owns a slot, the slot holds its initial
value. -/
theorem chain_first {σ V Q : Type} (R : V → V → Prop) (l : List V) (hpw : l.Pairwise R)
    (step : σ → V → σ) (val : σ → Q) (s0 : σ) (own : V → Prop)
    (hframe : ∀ v ∈ l, ¬ own v → ∀ s, val (step s v) = val s)
    (k : Nat) (v : V) (hk : l[k]? = some v) (hmin : ∀ w ∈ l, own w → ¬ R w v) :
    val ((l.take k).foldl step s0) = val s0 := by
  have h := foldl_take_frame step val l s0 own hframe 0 k (Nat.zero_le k)
    (fun i w _ hik hi hown =>
      hmin w (List.getElem?_mem hi) hown (pairwise_getElem? hpw hik hi hk))
  simpa using h

/-- At a visit whose predecessor `p` among the owners of a slot comes right
before it in the order of the owners, the slot holds what the visit of `p`
left in it. -/
theorem chain_next {σ V Q : Type} (R : V → V → Prop) (l : List V) (hpw : l.Pairwise R)
    (step : σ → V → σ) (val : σ → Q) (s0 : σ) (own : V → Prop)
    (hframe : ∀ v ∈ l, ¬ own v → ∀ s, val (step s v) = val s)
    (k : Nat) (v : V) (hk : l[k]? = some v) (p : V) (hp : p ∈ l) (hne : p ≠ v)
    (hnot : ¬ R v p) (hbetween : ∀ w ∈ l, own w → R p w → R w v → False) :
    ∃ j, j < k ∧ l[j]? = some p ∧
      val ((l.take k).foldl step s0) = val (step ((l.take j).foldl step s0) p) := by
  obtain ⟨j, hj1, hj2⟩ := List.getElem_of_mem hp
  have hj : l[j]? = some p := by rw [List.getElem?_eq_getElem hj1, hj2]
  have hjk : j < k := by
    rcases Nat.lt_trichotomy j k with h | h | h
    · exact h
    · subst h
      rw [hk] at hj
      exact absurd (Option.some.inj hj).symm hne
    · exact absurd (pairwise_getElem? hpw h hk hj) hnot
  refine ⟨j, hjk, hj, ?_⟩
  have h := foldl_take_frame step val l s0 own hframe (j + 1) k (by omega)
    (fun i w h1 h2 hi hown =>
      hbetween w (List.getElem?_mem hi) hown
        (pairwise_getElem? hpw (by omega) hj hi) (pairwise_getElem? hpw h2 hi hk))
  rw [h, take_succ_of_getElem? l j p hj, List.foldl_append]
  rfl

/-! ## The face recurrence -/

theorem solve_input_faces {P : Type} [Semiring P] (X : Externals P) (quan : Quantities P)
    (dims : Dimensions) (v : Int × Int × Int × Int) (s1 : State P) :
    (solve_input X quan dims v s1).sweeper.facexy = s1.sweeper.facexy ∧
      (solve_input X quan dims v s1).sweeper.facexz = s1.sweeper.facexz ∧
      (solve_input X quan dims v s1).sweeper.faceyz = s1.sweeper.faceyz := by
  unfold solve_input
  rw [moments_to_angles_eq]
  exact ⟨rfl, rfl, rfl⟩

theorem cell_body_sweeper {P : Type} [Semiring P] (X : Externals P) (quan : Quantities P)
    (dims : Dimensions) (octant : Int) (v : Int × Int × Int × Int) (s1 : State P) :
    (cell_body X quan dims octant 0 v.1 v.2.1 v.2.2.1 v.2.2.2 s1).sweeper
      = (solve_output X quan dims octant v s1).sweeper := by
  unfold cell_body solve_output solve_input
  rw [angles_to_moments_eq]

theorem cell_body_frame {P : Type} [Semiring P] (X : Externals P) (quan : Quantities P)
    (dims : Dimensions) (hown : SolveWritesOwn X quan dims) (octant : Int)
    (ho : InRange octant NOCTANT) (v : Int × Int × Int × Int)
    (hv : v ∈ octant_visits X dims octant) (s1 : State P) :
    (∀ k : Nat,
      (∀ ia iu : Int, InRange ia dims.na → InRange iu X.NU →
        X.ref_facexy dims X.NU v.2.2.2 v.2.2.1 v.1 ia iu 0 ≠ k) →
      (cell_body X quan dims octant 0 v.1 v.2.1 v.2.2.1 v.2.2.2 s1).sweeper.facexy k
        = s1.sweeper.facexy k) ∧
    (∀ k : Nat,
      (∀ ia iu : Int, InRange ia dims.na → InRange iu X.NU →
        X.ref_facexz dims X.NU v.2.2.2 v.2.1 v.1 ia iu 0 ≠ k) →
      (cell_body X quan dims octant 0 v.1 v.2.1 v.2.2.1 v.2.2.2 s1).sweeper.facexz k
        = s1.sweeper.facexz k) ∧
    (∀ k : Nat,
      (∀ ia iu : Int, InRange ia dims.na → InRange iu X.NU →
        X.ref_faceyz dims X.NU v.2.2.1 v.2.1 v.1 ia iu 0 ≠ k) →
      (cell_body X quan dims octant 0 v.1 v.2.1 v.2.2.1 v.2.2.2 s1).sweeper.faceyz k
        = s1.sweeper.faceyz k) := by
  obtain ⟨he, hz, hy, hx⟩ := mem_visit_order.mp hv
  have h := hown (solve_input X quan dims v s1).sweeper v.2.2.2 v.2.2.1 v.2.1 v.1 octant
    hx hy hz he ho
  have hf := solve_input_faces X quan dims v s1
  rw [cell_body_sweeper]
  refine ⟨fun k hk => ?_, fun k hk => ?_, fun k hk => ?_⟩
  · rw [← hf.1]; exact h.1 k hk
  · rw [← hf.2.1]; exact h.2.1 k hk
  · rw [← hf.2.2]; exact h.2.2 k hk

theorem facexy_chain {P : Type} [Semiring P] (X : Externals P) (quan : Quantities P)
    (dims : Dimensions) (hinj : FaceXYInj X dims) (hown : SolveWritesOwn X quan dims)
    (octant : Int) (ho : InRange octant NOCTANT) (s : State P) (k : Nat)
    (ie iz iy ix : Int) (hk : (octant_visits X dims octant)[k]? = some (ie, iz, iy, ix))
    (ia iu : Int) (hia : InRange ia dims.na) (hiu : InRange iu X.NU) :
    (iz = (if X.Dir_z octant = Dir.up then 0 else dims.nz - 1) →
      (state_before X quan dims octant s k).sweeper.facexy
          (X.ref_facexy dims X.NU ix iy ie ia iu 0)
        = X.Quantities_init_facexy ix iy
            (if X.Dir_z octant = Dir.up then -1 else dims.nz) ie ia iu dims) ∧
    (iz ≠ (if X.Dir_z octant = Dir.up then 0 else dims.nz - 1) →
      ∃ j, j < k ∧
        (octant_visits X dims octant)[j]? = some (ie, iz - Dir_inc (X.Dir_z octant), iy, ix) ∧
        (state_before X quan dims octant s k).sweeper.facexy
            (X.ref_facexy dims X.NU ix iy ie ia iu 0)
          = (solve_output X quan dims octant (ie, iz - Dir_inc (X.Dir_z octant), iy, ix)
              (state_before X quan dims octant s j)).sweeper.facexy
              (X.ref_facexy dims X.NU ix iy ie ia iu 0)) := by
  have hmem := List.getElem?_mem hk
  obtain ⟨he, hz, hy, hx⟩ := mem_visit_order.mp hmem
  simp only at he hz hy hx
  have hpw := pairwise_visit_order dims (X.Dir_x octant) (X.Dir_y octant) (X.Dir_z octant)
  have hframe : ∀ w ∈ octant_visits X dims octant,
      ¬ (w.2.2.2 = ix ∧ w.2.2.1 = iy ∧ w.1 = ie) → ∀ s1 : State P,
      (cell_body X quan dims octant 0 w.1 w.2.1 w.2.2.1 w.2.2.2 s1).sweeper.facexy
          (X.ref_facexy dims X.NU ix iy ie ia iu 0)
        = s1.sweeper.facexy (X.ref_facexy dims X.NU ix iy ie ia iu 0) := by
    intro w hw hnown s1
    obtain ⟨hwe, _, hwy, hwx⟩ := mem_visit_order.mp hw
    apply (cell_body_frame X quan dims hown octant ho w hw s1).1
    intro ia1 iu1 h1 h2 heq
    obtain ⟨e1, e2, e3, _, _⟩ := hinj _ _ _ _ _ _ _ _ _ _ hwx hwy hwe h1 h2 hx hy he hia hiu heq
    exact hnown ⟨e1, e2, e3⟩
  constructor
  · intro hfirst
    have h := chain_first (visit_lt (X.Dir_x octant) (X.Dir_y octant) (X.Dir_z octant))
      (octant_visits X dims octant) hpw
      (fun acc v => cell_body X quan dims octant 0 v.1 v.2.1 v.2.2.1 v.2.2.2 acc)
      (fun s1 : State P => s1.sweeper.facexy (X.ref_facexy dims X.NU ix iy ie ia iu 0))
      (init_faces X dims (X.Dir_x octant) (X.Dir_y octant) (X.Dir_z octant) 0 s)
      (fun w => w.2.2.2 = ix ∧ w.2.2.1 = iy ∧ w.1 = ie) hframe k _ hk
      (by
        rintro ⟨e1, z1, y1, x1⟩ hw ⟨rfl, rfl, rfl⟩ hlt
        obtain ⟨_, hz1, _, _⟩ := mem_visit_order.mp hw
        simp only [visit_lt, InRange] at hlt hz1
        revert hfirst hlt
        cases X.Dir_z octant <;> simp only [Dir_inc, if_true, if_false, reduceCtorEq] <;>
          intro hfirst hlt <;> omega)
    exact h.trans (init_facexy_val X dims hinj _ _ ix iy ie ia iu hx hy he hia hiu)
  · intro hnext
    have hzp : InRange (iz - Dir_inc (X.Dir_z octant)) dims.nz := by
      simp only [InRange] at hz ⊢
      revert hnext
      cases X.Dir_z octant <;> simp only [Dir_inc, if_true, if_false, reduceCtorEq] <;>
        intro hnext <;> omega
    obtain ⟨j, hjk, hj, hval⟩ := chain_next
      (visit_lt (X.Dir_x octant) (X.Dir_y octant) (X.Dir_z octant))
      (octant_visits X dims octant) hpw
      (fun acc v => cell_body X quan dims octant 0 v.1 v.2.1 v.2.2.1 v.2.2.2 acc)
      (fun s1 : State P => s1.sweeper.facexy (X.ref_facexy dims X.NU ix iy ie ia iu 0))
      (init_faces X dims (X.Dir_x octant) (X.Dir_y octant) (X.Dir_z octant) 0 s)
      (fun w => w.2.2.2 = ix ∧ w.2.2.1 = iy ∧ w.1 = ie) hframe k _ hk
      (ie, iz - Dir_inc (X.Dir_z octant), iy, ix)
      (mem_visit_order.mpr ⟨he, hzp, hy, hx⟩)
      (by
        intro h
        have h1 : iz - Dir_inc (X.Dir_z octant) = iz := (Prod.mk.inj (Prod.mk.inj h).2).1
        revert h1
        cases X.Dir_z octant <;> simp only [Dir_inc] <;> intro h1 <;> omega)
      (by
        intro hlt
        simp only [visit_lt] at hlt
        revert hlt
        cases X.Dir_z octant <;> simp only [Dir_inc] <;> intro hlt <;> omega)
      (by
        rintro ⟨e1, z1, y1, x1⟩ _ ⟨rfl, rfl, rfl⟩ h1 h2
        simp only [visit_lt] at h1 h2
        revert h1 h2
        cases X.Dir_z octant <;> simp only [Dir_inc] <;> intro h1 h2 <;> omega)
    refine ⟨j, hjk, hj, ?_⟩
    exact hval.trans (congrFun (congrArg Sweeper.facexy
      (cell_body_sweeper X quan dims octant (ie, iz - Dir_inc (X.Dir_z octant), iy, ix) _)) _)

theorem facexz_chain {P : Type} [Semiring P] (X : Externals P) (quan : Quantities P)
    (dims : Dimensions) (hinj : FaceXZInj X dims) (hown : SolveWritesOwn X quan dims)
    (octant : Int) (ho : InRange octant NOCTANT) (s : State P) (k : Nat)
    (ie iz iy ix : Int) (hk : (octant_visits X dims octant)[k]? = some (ie, iz, iy, ix))
    (ia iu : Int) (hia : InRange ia dims.na) (hiu : InRange iu X.NU) :
    (iy = (if X.Dir_y octant = Dir.up then 0 else dims.ny - 1) →
      (state_before X quan dims octant s k).sweeper.facexz
          (X.ref_facexz dims X.NU ix iz ie ia iu 0)
        = X.Quantities_init_facexz ix
            (if X.Dir_y octant = Dir.up then -1 else dims.ny) iz ie ia iu dims) ∧
    (iy ≠ (if X.Dir_y octant = Dir.up then 0 else dims.ny - 1) →
      ∃ j, j < k ∧
        (octant_visits X dims octant)[j]? = some (ie, iz, iy - Dir_inc (X.Dir_y octant), ix) ∧
        (state_before X quan dims octant s k).sweeper.facexz
            (X.ref_facexz dims X.NU ix iz ie ia iu 0)
          = (solve_output X quan dims octant (ie, iz, iy - Dir_inc (X.Dir_y octant), ix)
              (state_before X quan dims octant s j)).sweeper.facexz
              (X.ref_facexz dims X.NU ix iz ie ia iu 0)) := by
  have hmem := List.getElem?_mem hk
  obtain ⟨he, hz, hy, hx⟩ := mem_visit_order.mp hmem
  simp only at he hz hy hx
  have hpw := pairwise_visit_order dims (X.Dir_x octant) (X.Dir_y octant) (X.Dir_z octant)
  have hframe : ∀ w ∈ octant_visits X dims octant,
      ¬ (w.2.2.2 = ix ∧ w.2.1 = iz ∧ w.1 = ie) → ∀ s1 : State P,
      (cell_body X quan dims octant 0 w.1 w.2.1 w.2.2.1 w.2.2.2 s1).sweeper.facexz
          (X.ref_facexz dims X.NU ix iz ie ia iu 0)
        = s1.sweeper.facexz (X.ref_facexz dims X.NU ix iz ie ia iu 0) := by
    intro w hw hnown s1
    obtain ⟨hwe, hwz, hwy, hwx⟩ := mem_visit_order.mp hw
    apply (cell_body_frame X quan dims hown octant ho w hw s1).2.1
    intro ia1 iu1 h1 h2 heq
    obtain ⟨e1, e2, e3, _, _⟩ := hinj _ _ _ _ _ _ _ _ _ _ hwx hwz hwe h1 h2 hx hz he hia hiu heq
    exact hnown ⟨e1, e2, e3⟩
  constructor
  · intro hfirst
    have h := chain_first (visit_lt (X.Dir_x octant) (X.Dir_y octant) (X.Dir_z octant))
      (octant_visits X dims octant) hpw
      (fun acc v => cell_body X quan dims octant 0 v.1 v.2.1 v.2.2.1 v.2.2.2 acc)
      (fun s1 : State P => s1.sweeper.facexz (X.ref_facexz dims X.NU ix iz ie ia iu 0))
      (init_faces X dims (X.Dir_x octant) (X.Dir_y octant) (X.Dir_z octant) 0 s)
      (fun w => w.2.2.2 = ix ∧ w.2.1 = iz ∧ w.1 = ie) hframe k _ hk
      (by
        rintro ⟨e1, z1, y1, x1⟩ hw ⟨rfl, rfl, rfl⟩ hlt
        obtain ⟨_, hz1, hy1, hx1⟩ := mem_visit_order.mp hw
        simp only [visit_lt, InRange] at hlt hz1 hy1 hx1
        revert hfirst hlt
        cases X.Dir_z octant <;> cases X.Dir_y octant <;> cases X.Dir_x octant <;>
          simp only [Dir_inc, if_true, if_false, reduceCtorEq] <;>
          intro hfirst hlt <;> omega)
    exact h.trans (init_facexz_val X dims hinj _ _ ix iz ie ia iu hx hz he hia hiu)
  · intro hnext
    have hzp : InRange (iy - Dir_inc (X.Dir_y octant)) dims.ny := by
      simp only [InRange] at hx hy hz ⊢
      revert hnext
      cases X.Dir_y octant <;> simp only [Dir_inc, if_true, if_false, reduceCtorEq] <;>
        intro hnext <;> omega
    obtain ⟨j, hjk, hj, hval⟩ := chain_next
      (visit_lt (X.Dir_x octant) (X.Dir_y octant) (X.Dir_z octant))
      (octant_visits X dims octant) hpw
      (fun acc v => cell_body X quan dims octant 0 v.1 v.2.1 v.2.2.1 v.2.2.2 acc)
      (fun s1 : State P => s1.sweeper.facexz (X.ref_facexz dims X.NU ix iz ie ia iu 0))
      (init_faces X dims (X.Dir_x octant) (X.Dir_y octant) (X.Dir_z octant) 0 s)
      (fun w => w.2.2.2 = ix ∧ w.2.1 = iz ∧ w.1 = ie) hframe k _ hk
      (ie, iz, iy - Dir_inc (X.Dir_y octant), ix)
      (mem_visit_order.mpr ⟨he, hz, hzp, hx⟩)
      (by
        intro h
        simp only [Prod.mk.injEq] at h
        revert h
        cases X.Dir_y octant <;> simp only [Dir_inc] <;> intro h <;> omega)
      (by
        intro hlt
        simp only [visit_lt] at hlt
        revert hlt
        cases X.Dir_z octant <;> cases X.Dir_y octant <;> cases X.Dir_x octant <;>
          simp only [Dir_inc] <;> intro hlt <;> omega)
      (by
        rintro ⟨e1, z1, y1, x1⟩ _ ⟨rfl, rfl, rfl⟩ h1 h2
        simp only [visit_lt] at h1 h2
        revert h1 h2
        cases X.Dir_z octant <;> cases X.Dir_y octant <;> cases X.Dir_x octant <;>
          simp only [Dir_inc] <;> intro h1 h2 <;> omega)
    refine ⟨j, hjk, hj, ?_⟩
    exact hval.trans (congrFun (congrArg Sweeper.facexz
      (cell_body_sweeper X quan dims octant (ie, iz, iy - Dir_inc (X.Dir_y octant), ix) _)) _)

theorem faceyz_chain {P : Type} [Semiring P] (X : Externals P) (quan : Quantities P)
    (dims : Dimensions) (hinj : FaceYZInj X dims) (hown : SolveWritesOwn X quan dims)
    (octant : Int) (ho : InRange octant NOCTANT) (s : State P) (k : Nat)
    (ie iz iy ix : Int) (hk : (octant_visits X dims octant)[k]? = some (ie, iz, iy, ix))
    (ia iu : Int) (hia : InRange ia dims.na) (hiu : InRange iu X.NU) :
    (ix = (if X.Dir_x octant = Dir.up then 0 else dims.nx - 1) →
      (state_before X quan dims octant s k).sweeper.faceyz
          (X.ref_faceyz dims X.NU iy iz ie ia iu 0)
        = X.Quantities_init_faceyz
            (if X.Dir_x octant = Dir.up then -1 else dims.nx) iy iz ie ia iu dims) ∧
    (ix ≠ (if X.Dir_x octant = Dir.up then 0 else dims.nx - 1) →
      ∃ j, j < k ∧
        (octant_visits X dims octant)[j]? = some (ie, iz, iy, ix - Dir_inc (X.Dir_x octant)) ∧
        (state_before X quan dims octant s k).sweeper.faceyz
            (X.ref_faceyz dims X.NU iy iz ie ia iu 0)
          = (solve_output X quan dims octant (ie, iz, iy, ix - Dir_inc (X.Dir_x octant))
              (state_before X quan dims octant s j)).sweeper.faceyz
              (X.ref_faceyz dims X.NU iy iz ie ia iu 0)) := by
  have hmem := List.getElem?_mem hk
  obtain ⟨he, hz, hy, hx⟩ := mem_visit_order.mp hmem
  simp only at he hz hy hx
  have hpw := pairwise_visit_order dims (X.Dir_x octant) (X.Dir_y octant) (X.Dir_z octant)
  have hframe : ∀ w ∈ octant_visits X dims octant,
      ¬ (w.2.2.1 = iy ∧ w.2.1 = iz ∧ w.1 = ie) → ∀ s1 : State P,
      (cell_body X quan dims octant 0 w.1 w.2.1 w.2.2.1 w.2.2.2 s1).sweeper.faceyz
          (X.ref_faceyz dims X.NU iy iz ie ia iu 0)
        = s1.sweeper.faceyz (X.ref_faceyz dims X.NU iy iz ie ia iu 0) := by
    intro w hw hnown s1
    obtain ⟨hwe, hwz, hwy, hwx⟩ := mem_visit_order.mp hw
    apply (cell_body_frame X quan dims hown octant ho w hw s1).2.2
    intro ia1 iu1 h1 h2 heq
    obtain ⟨e1, e2, e3, _, _⟩ := hinj _ _ _ _ _ _ _ _ _ _ hwy hwz hwe h1 h2 hy hz he hia hiu heq
    exact hnown ⟨e1, e2, e3⟩
  constructor
  · intro hfirst
    have h := chain_first (visit_lt (X.Dir_x octant) (X.Dir_y octant) (X.Dir_z octant))
      (octant_visits X dims octant) hpw
      (fun acc v => cell_body X quan dims octant 0 v.1 v.2.1 v.2.2.1 v.2.2.2 acc)
      (fun s1 : State P => s1.sweeper.faceyz (X.ref_faceyz dims X.NU iy iz ie ia iu 0))
      (init_faces X dims (X.Dir_x octant) (X.Dir_y octant) (X.Dir_z octant) 0 s)
      (fun w => w.2.2.1 = iy ∧ w.2.1 = iz ∧ w.1 = ie) hframe k _ hk
      (by
        rintro ⟨e1, z1, y1, x1⟩ hw ⟨rfl, rfl, rfl⟩ hlt
        obtain ⟨_, hz1, hy1, hx1⟩ := mem_visit_order.mp hw
        simp only [visit_lt, InRange] at hlt hz1 hy1 hx1
        revert hfirst hlt
        cases X.Dir_z octant <;> cases X.Dir_y octant <;> cases X.Dir_x octant <;>
          simp only [Dir_inc, if_true, if_false, reduceCtorEq] <;>
          intro hfirst hlt <;> omega)
    exact h.trans (init_faceyz_val X dims hinj _ _ iy iz ie ia iu hy hz he hia hiu)
  · intro hnext
    have hzp : InRange (ix - Dir_inc (X.Dir_x octant)) dims.nx := by
      simp only [InRange] at hx hy hz ⊢
      revert hnext
      cases X.Dir_x octant <;> simp only [Dir_inc, if_true, if_false, reduceCtorEq] <;>
        intro hnext <;> omega
    obtain ⟨j, hjk, hj, hval⟩ := chain_next
      (visit_lt (X.Dir_x octant) (X.Dir_y octant) (X.Dir_z octant))
      (octant_visits X dims octant) hpw
      (fun acc v => cell_body X quan dims octant 0 v.1 v.2.1 v.2.2.1 v.2.2.2 acc)
      (fun s1 : State P => s1.sweeper.faceyz (X.ref_faceyz dims X.NU iy iz ie ia iu 0))
      (init_faces X dims (X.Dir_x octant) (X.Dir_y octant) (X.Dir_z octant) 0 s)
      (fun w => w.2.2.1 = iy ∧ w.2.1 = iz ∧ w.1 = ie) hframe k _ hk
      (ie, iz, iy, ix - Dir_inc (X.Dir_x octant))
      (mem_visit_order.mpr ⟨he, hz, hy, hzp⟩)
      (by
        intro h
        simp only [Prod.mk.injEq] at h
        revert h
        cases X.Dir_x octant <;> simp only [Dir_inc] <;> intro h <;> omega)
      (by
        intro hlt
        simp only [visit_lt] at hlt
        revert hlt
        cases X.Dir_z octant <;> cases X.Dir_y octant <;> cases X.Dir_x octant <;>
          simp only [Dir_inc] <;> intro hlt <;> omega)
      (by
        rintro ⟨e1, z1, y1, x1⟩ _ ⟨rfl, rfl, rfl⟩ h1 h2
        simp only [visit_lt] at h1 h2
        revert h1 h2
        cases X.Dir_z octant <;> cases X.Dir_y octant <;> cases X.Dir_x octant <;>
          simp only [Dir_inc] <;> intro h1 h2 <;> omega)
    refine ⟨j, hjk, hj, ?_⟩
    exact hval.trans (congrFun (congrArg Sweeper.faceyz
      (cell_body_sweeper X quan dims octant (ie, iz, iy, ix - Dir_inc (X.Dir_x octant)) _)) _)

/-! ## The claims -/

/-- C1, additivity of `Sweeper_sweep`.  Over exact arithmetic and with a solve
operator that is a function of its arguments only, for every initial content
of the output field the sweep returns, and its output field equals at every
offset the sum over the octants `o = 0..7` of the output field obtained by
zeroing an output field and running only octant `o`'s pass (face
initialisation, then all energy groups and cells) on the same input field,
whatever scratch buffers and output field that single pass starts from. -/
theorem C1_additivity {P : Type} [Semiring P] (X : Externals P) (quan : Quantities P)
    (dims : Dimensions) (fuel : Nat) (hf : FuelCovers fuel dims)
    (hsolve : SolveLocal X quan dims) (sweeper : Sweeper P) (vo vi : Nat → P)
    (scratch : Nat → Sweeper P) (vo_single : Nat → Nat → P) :
    ∃ r : State P, Sweeper_sweep X fuel sweeper vo vi quan dims = some r ∧
      ∃ single : Nat → State P,
        (∀ o : Nat, o < 8 →
          sweep_single_octant X fuel (scratch o) (vo_single o) vi quan dims (o : Int)
            = some (single o)) ∧
        ∀ k : Nat, r.vo k = ∑ o in Finset.range 8, (single o).vo k := by
  refine ⟨_, Sweeper_sweep_eq X fuel sweeper vo vi quan dims hf,
    fun o => octant_result X quan dims (o : Int)
      { sweeper := scratch o, vo := fun _ => 0, vi := vi }, ?_, ?_⟩
  · intro o _
    unfold sweep_single_octant
    exact octant_pass_eq X fuel quan dims (o : Int) _ hf
  · intro k
    exact (sweep_prefix_sum X quan dims hsolve sweeper vi scratch 8 (le_refl 8)).2 k

/-- Instance of C1: the example solve on the two-cells-per-axis grid; the full
sweep starts from buffers filled with 7 and 5, each single pass from zeros. -/
theorem C1_additivity_witness :
    (FuelCovers 3 exDims2 ∧ SolveLocal (exExternals 1) exQuan exDims2) ∧
    ∃ r : State Int,
      Sweeper_sweep (exExternals 1) 3 (exSweeper 7) (fun _ => 5) (fun _ => 3) exQuan exDims2
        = some r ∧
      ∃ single : Nat → State Int,
        (∀ o : Nat, o < 8 →
          sweep_single_octant (exExternals 1) 3 (exSweeper 0) (fun _ => 0) (fun _ => 3)
            exQuan exDims2 (o : Int) = some (single o)) ∧
        ∀ k : Nat, r.vo k = ∑ o in Finset.range 8, (single o).vo k :=
  ⟨⟨ex_fuel, ex_solve_local 1 exQuan⟩,
   C1_additivity (exExternals 1) exQuan exDims2 3 ex_fuel (ex_solve_local 1 exQuan)
     (exSweeper 7) (fun _ => 5) (fun _ => 3) (fun _ => exSweeper 0) (fun _ _ => 0)⟩

/-- C2 as stated fails: on the single-cell example the solve operator maps zero
source and zero incoming flux to zero, the input field is all zero, but the
boundary initialisers return 1, and the sweep leaves 24 in the output field. -/
theorem C2_zero_input_counterexample :
    (FuelCovers 3 exDims1 ∧ SolveZero (exExternals 1) exQuan exDims1) ∧
    (Sweeper_sweep (exExternals 1) 3 (exSweeper 0) (fun _ => 0) (fun _ => 0) exQuan
        exDims1).map
        (fun r => r.vo ((exExternals 1).ref_state exDims1 (exExternals 1).NU 0 0 0 0 0 0))
      = some 24 :=
  ⟨⟨by unfold FuelCovers exDims1; decide, ex_solve_zero 1 exQuan exDims1 (by decide)⟩,
   by decide⟩

/-- C2 as amended, zero-input fixed point.  If the three boundary initialisers
return zero and the solve operator maps a zero local source together with zero
incoming face flux to zero angular flux and zero outgoing face flux, then
`Sweeper_sweep` applied to an all-zero input field returns and leaves every
element of the output field equal to zero. -/
theorem C2_zero_input_fixed_point {P : Type} [Semiring P] (X : Externals P)
    (quan : Quantities P) (dims : Dimensions) (fuel : Nat) (hf : FuelCovers fuel dims)
    (hb : BoundaryZero X) (hsolve : SolveZero X quan dims) (sweeper : Sweeper P)
    (vo : Nat → P) :
    ∃ r : State P, Sweeper_sweep X fuel sweeper vo (fun _ => 0) quan dims = some r ∧
      ∀ k : Nat, r.vo k = 0 := by
  refine ⟨_, Sweeper_sweep_eq X fuel sweeper vo (fun _ => 0) quan dims hf, ?_⟩
  unfold sweep_result
  have h := forLt_inv (fun (s1 : State P) => (∀ k, s1.vo k = 0) ∧ (∀ k, s1.vi k = 0))
    NOCTANT (fun octant s => octant_result X quan dims octant s)
    (fun o h0 h1 s1 hs1 => octant_result_zero X quan dims hb hsolve o ⟨h0, h1⟩ s1 hs1.1 hs1.2)
    { sweeper := sweeper, vo := initialize_state_zero vo dims X.NU, vi := fun _ => 0 }
    ⟨fun _ => rfl, fun _ => rfl⟩
  exact h.1

/-- Instance of C2 as amended: the example with boundary value 0. -/
theorem C2_zero_input_fixed_point_witness :
    (FuelCovers 3 exDims2 ∧ BoundaryZero (exExternals 0) ∧
      SolveZero (exExternals 0) exQuan exDims2) ∧
    ∃ r : State Int,
      Sweeper_sweep (exExternals 0) 3 (exSweeper 7) (fun _ => 5) (fun _ => 0) exQuan exDims2
        = some r ∧
      ∀ k : Nat, r.vo k = 0 :=
  ⟨⟨ex_fuel, ex_boundary_zero, ex_solve_zero 0 exQuan exDims2 (by decide)⟩,
   C2_zero_input_fixed_point (exExternals 0) exQuan exDims2 3 ex_fuel ex_boundary_zero
     (ex_solve_zero 0 exQuan exDims2 (by decide)) (exSweeper 7) (fun _ => 5)⟩

/-- C3, single-visit invariant.  With non-negative grid extents and enough fuel
for the direction loops, the gridcell loop nest of any octant runs its body
once at each element of a list of cells that has no repetition and contains
exactly the cells with `0 ≤ ix < nx`, `0 ≤ iy < ny`, `0 ≤ iz < nz`; this holds
for an arbitrary body and in particular, in every energy group, for the
moments-to-angles / solve / angles-to-moments triple.  With an extent equal to
zero the list is empty. -/
theorem C3_single_visit {P : Type} [Semiring P] (X : Externals P) (fuel : Nat)
    (dims : Dimensions) (hf : FuelCovers fuel dims) (octant : Int) :
    ∃ cells : List (Int × Int × Int),
      (∀ (σ : Type) (body : Int → Int → Int → σ → σ) (s : σ),
        grid_loop fuel dims (X.Dir_x octant) (X.Dir_y octant) (X.Dir_z octant) body s
          = some (cells.foldl (fun acc c => body c.1 c.2.1 c.2.2 acc) s)) ∧
      (∀ (quan : Quantities P) (octant_ind : Int) (s : State P),
        energy_loop X fuel quan dims octant octant_ind s
          = some (forLt dims.ne (fun ie se =>
              cells.foldl (fun acc c =>
                cell_body X quan dims octant octant_ind ie c.1 c.2.1 c.2.2 acc) se) s)) ∧
      cells.Nodup ∧
      (∀ iz iy ix : Int, (iz, iy, ix) ∈ cells ↔
        (0 ≤ ix ∧ ix < dims.nx) ∧ (0 ≤ iy ∧ iy < dims.ny) ∧ (0 ≤ iz ∧ iz < dims.nz)) ∧
      (dims.nx = 0 ∨ dims.ny = 0 ∨ dims.nz = 0 → cells = []) := by
  have hf1 := hf
  obtain ⟨⟨hx, hfx⟩, ⟨hy, hfy⟩, ⟨hz, hfz⟩⟩ := hf1
  refine ⟨cell_order dims (X.Dir_x octant) (X.Dir_y octant) (X.Dir_z octant), ?_, ?_,
    nodup_cell_order _ _ _ _, ?_, ?_⟩
  · intro σ body s
    exact grid_loop_eq fuel dims _ _ _ body s hx hy hz hfx hfy hfz
  · intro quan octant_ind s
    unfold energy_loop
    exact forLtM_pure dims.ne _ _
      (fun ie _ _ se => grid_loop_eq fuel dims _ _ _ _ se hx hy hz hfx hfy hfz) s
  · intro iz iy ix
    rw [mem_cell_order]
    simp only
    tauto
  · intro h0
    apply List.eq_nil_iff_forall_not_mem.mpr
    intro c hc
    have := mem_cell_order.mp hc
    omega

/-- Instance of C3: the two-cells-per-axis grid, octant 5 of the example. -/
theorem C3_single_visit_witness :
    FuelCovers 3 exDims2 ∧
    ∃ cells : List (Int × Int × Int),
      (∀ (σ : Type) (body : Int → Int → Int → σ → σ) (s : σ),
        grid_loop 3 exDims2 ((exExternals 1).Dir_x 5) ((exExternals 1).Dir_y 5)
            ((exExternals 1).Dir_z 5) body s
          = some (cells.foldl (fun acc c => body c.1 c.2.1 c.2.2 acc) s)) ∧
      (∀ (quan : Quantities Int) (octant_ind : Int) (s : State Int),
        energy_loop (exExternals 1) 3 quan exDims2 5 octant_ind s
          = some (forLt exDims2.ne (fun ie se =>
              cells.foldl (fun acc c =>
                cell_body (exExternals 1) quan exDims2 5 octant_ind ie c.1 c.2.1 c.2.2 acc)
                se) s)) ∧
      cells.Nodup ∧
      (∀ iz iy ix : Int, (iz, iy, ix) ∈ cells ↔
        (0 ≤ ix ∧ ix < exDims2.nx) ∧ (0 ≤ iy ∧ iy < exDims2.ny) ∧
          (0 ≤ iz ∧ iz < exDims2.nz)) ∧
      (exDims2.nx = 0 ∨ exDims2.ny = 0 ∨ exDims2.nz = 0 → cells = []) :=
  ⟨by unfold FuelCovers exDims2; decide,
   C3_single_visit (exExternals 1) 3 exDims2 (by unfold FuelCovers exDims2; decide) 5⟩

/-- C4, face recurrence chain.  Assume in-range index tuples of each face
buffer have distinct offsets and the solve operator writes, in each face
buffer, only the slots of its own cell's in-plane coordinates, energy group and
octant slot.  The pass of an octant is the face initialisation followed by the
cell visits in the order `octant_visits`.  At the `k`-th visit, of cell
`(ix, iy, iz)` in group `ie`, for every in-range angle and unknown: the
`facexy` value on which `Quantities_solve` is called is the boundary value
written by the face initialisation when `iz` is the first index along z in
sweep order, and otherwise it is the value in which the solve of the preceding
cell along z, an earlier visit, returned; the same holds for `facexz` along y
and for `faceyz` along x. -/
theorem C4_face_recurrence_chain {P : Type} [Semiring P] (X : Externals P)
    (quan : Quantities P) (dims : Dimensions) (fuel : Nat) (hf : FuelCovers fuel dims)
    (hxy : FaceXYInj X dims) (hxz : FaceXZInj X dims) (hyz : FaceYZInj X dims)
    (hown : SolveWritesOwn X quan dims) (octant : Int)
    (ho : 0 ≤ octant ∧ octant < NOCTANT) (s : State P) (k : Nat) (ie iz iy ix : Int)
    (hk : (octant_visits X dims octant)[k]? = some (ie, iz, iy, ix))
    (ia iu : Int) (hia : 0 ≤ ia ∧ ia < dims.na) (hiu : 0 ≤ iu ∧ iu < X.NU) :
    octant_pass X fuel quan dims octant s
      = some (state_before X quan dims octant s (octant_visits X dims octant).length) ∧
    (iz = (if X.Dir_z octant = Dir.up then 0 else dims.nz - 1) →
      (solve_input X quan dims (ie, iz, iy, ix)
          (state_before X quan dims octant s k)).sweeper.facexy
          (X.ref_facexy dims X.NU ix iy ie ia iu 0)
        = X.Quantities_init_facexy ix iy
            (if X.Dir_z octant = Dir.up then -1 else dims.nz) ie ia iu dims) ∧
    (iz ≠ (if X.Dir_z octant = Dir.up then 0 else dims.nz - 1) →
      ∃ j, j < k ∧
        (octant_visits X dims octant)[j]? = some (ie, iz - Dir_inc (X.Dir_z octant), iy, ix) ∧
        (solve_input X quan dims (ie, iz, iy, ix)
            (state_before X quan dims octant s k)).sweeper.facexy
            (X.ref_facexy dims X.NU ix iy ie ia iu 0)
          = (solve_output X quan dims octant (ie, iz - Dir_inc (X.Dir_z octant), iy, ix)
              (state_before X quan dims octant s j)).sweeper.facexy
              (X.ref_facexy dims X.NU ix iy ie ia iu 0)) ∧
    (iy = (if X.Dir_y octant = Dir.up then 0 else dims.ny - 1) →
      (solve_input X quan dims (ie, iz, iy, ix)
          (state_before X quan dims octant s k)).sweeper.facexz
          (X.ref_facexz dims X.NU ix iz ie ia iu 0)
        = X.Quantities_init_facexz ix
            (if X.Dir_y octant = Dir.up then -1 else dims.ny) iz ie ia iu dims) ∧
    (iy ≠ (if X.Dir_y octant = Dir.up then 0 else dims.ny - 1) →
      ∃ j, j < k ∧
        (octant_visits X dims octant)[j]? = some (ie, iz, iy - Dir_inc (X.Dir_y octant), ix) ∧
        (solve_input X quan dims (ie, iz, iy, ix)
            (state_before X quan dims octant s k)).sweeper.facexz
            (X.ref_facexz dims X.NU ix iz ie ia iu 0)
          = (solve_output X quan dims octant (ie, iz, iy - Dir_inc (X.Dir_y octant), ix)
              (state_before X quan dims octant s j)).sweeper.facexz
              (X.ref_facexz dims X.NU ix iz ie ia iu 0)) ∧
    (ix = (if X.Dir_x octant = Dir.up then 0 else dims.nx - 1) →
      (solve_input X quan dims (ie, iz, iy, ix)
          (state_before X quan dims octant s k)).sweeper.faceyz
          (X.ref_faceyz dims X.NU iy iz ie ia iu 0)
        = X.Quantities_init_faceyz
            (if X.Dir_x octant = Dir.up then -1 else dims.nx) iy iz ie ia iu dims) ∧
    (ix ≠ (if X.Dir_x octant = Dir.up then 0 else dims.nx - 1) →
      ∃ j, j < k ∧
        (octant_visits X dims octant)[j]? = some (ie, iz, iy, ix - Dir_inc (X.Dir_x octant)) ∧
        (solve_input X quan dims (ie, iz, iy, ix)
            (state_before X quan dims octant s k)).sweeper.faceyz
            (X.ref_faceyz dims X.NU iy iz ie ia iu 0)
          = (solve_output X quan dims octant (ie, iz, iy, ix - Dir_inc (X.Dir_x octant))
              (state_before X quan dims octant s j)).sweeper.faceyz
              (X.ref_faceyz dims X.NU iy iz ie ia iu 0)) := by
  have hin := solve_input_faces X quan dims (ie, iz, iy, ix)
    (state_before X quan dims octant s k)
  have cxy := facexy_chain X quan dims hxy hown octant ho s k ie iz iy ix hk ia iu hia hiu
  have cxz := facexz_chain X quan dims hxz hown octant ho s k ie iz iy ix hk ia iu hia hiu
  have cyz := faceyz_chain X quan dims hyz hown octant ho s k ie iz iy ix hk ia iu hia hiu
  rw [hin.1, hin.2.1, hin.2.2]
  refine ⟨?_, cxy.1, cxy.2, cxz.1, cxz.2, cyz.1, cyz.2⟩
  rw [octant_pass_eq X fuel quan dims octant s hf]
  unfold state_before octant_result octant_visits
  rw [List.take_length]

/-- Instance of C4: octant 0 of the example on the two-cells-per-axis grid;
the visit number 4 is the cell (0, 0, 1), second along z, whose predecessor
along z is the cell (0, 0, 0). -/
theorem C4_face_recurrence_chain_witness :
    (FuelCovers 3 exDims2 ∧ FaceXYInj (exExternals 1) exDims2 ∧
      FaceXZInj (exExternals 1) exDims2 ∧ FaceYZInj (exExternals 1) exDims2 ∧
      SolveWritesOwn (exExternals 1) exQuan exDims2 ∧
      (octant_visits (exExternals 1) exDims2 0)[4]? = some (0, 1, 0, 0)) ∧
    ∃ j, j < 4 ∧
      (octant_visits (exExternals 1) exDims2 0)[j]?
        = some (0, 1 - Dir_inc ((exExternals 1).Dir_z 0), 0, 0) ∧
      (solve_input (exExternals 1) exQuan exDims2 (0, 1, 0, 0)
          (state_before (exExternals 1) exQuan exDims2 0 exState 4)).sweeper.facexy
          ((exExternals 1).ref_facexy exDims2 (exExternals 1).NU 0 0 0 0 0 0)
        = (solve_output (exExternals 1) exQuan exDims2 0
            (0, 1 - Dir_inc ((exExternals 1).Dir_z 0), 0, 0)
            (state_before (exExternals 1) exQuan exDims2 0 exState j)).sweeper.facexy
            ((exExternals 1).ref_facexy exDims2 (exExternals 1).NU 0 0 0 0 0 0) :=
  ⟨⟨ex_fuel, ex_facexy_inj 1, ex_facexz_inj 1, ex_faceyz_inj 1,
     ex_solve_writes_own 1 exQuan, by decide⟩,
   (C4_face_recurrence_chain (exExternals 1) exQuan exDims2 3 ex_fuel (ex_facexy_inj 1)
      (ex_facexz_inj 1) (ex_faceyz_inj 1) (ex_solve_writes_own 1 exQuan) 0 (by decide)
      exState 4 0 1 0 0 (by decide) 0 0 (by decide) (by decide)).2.2.1 (by decide)⟩

/-- C5, boundary initialisation.  Provided in-range index tuples of each face
buffer have distinct offsets, after the three face-initialisation loops of an
octant, and still in the state handed to `Quantities_solve` at a first cell
(only the moments-to-angles transform lies in between), every in-range slot of
`facexy` holds `Quantities_init_facexy( ix, iy, zb, ie, ia, iu )` with `zb = -1`
when the z flag is up and `zb = nz` when it is down; likewise `facexz` with
`yb` and `faceyz` with `xb`. -/
theorem C5_boundary_initialisation {P : Type} [Semiring P] (X : Externals P)
    (quan : Quantities P) (dims : Dimensions) (hxy : FaceXYInj X dims)
    (hxz : FaceXZInj X dims) (hyz : FaceYZInj X dims) (octant : Int) (s s1 : State P)
    (hs1 : s1 = init_faces X dims (X.Dir_x octant) (X.Dir_y octant) (X.Dir_z octant) 0 s ∨
      ∃ ix0 iy0 iz0 ie0 : Int, s1 = moments_to_angles X quan dims ix0 iy0 iz0 ie0
        (init_faces X dims (X.Dir_x octant) (X.Dir_y octant) (X.Dir_z octant) 0 s))
    (ix iy iz ie ia iu : Int) (hix : 0 ≤ ix ∧ ix < dims.nx) (hiy : 0 ≤ iy ∧ iy < dims.ny)
    (hiz : 0 ≤ iz ∧ iz < dims.nz) (hie : 0 ≤ ie ∧ ie < dims.ne)
    (hia : 0 ≤ ia ∧ ia < dims.na) (hiu : 0 ≤ iu ∧ iu < X.NU) :
    s1.sweeper.facexy (X.ref_facexy dims X.NU ix iy ie ia iu 0)
      = X.Quantities_init_facexy ix iy
          (if X.Dir_z octant = Dir.up then -1 else dims.nz) ie ia iu dims ∧
    s1.sweeper.facexz (X.ref_facexz dims X.NU ix iz ie ia iu 0)
      = X.Quantities_init_facexz ix
          (if X.Dir_y octant = Dir.up then -1 else dims.ny) iz ie ia iu dims ∧
    s1.sweeper.faceyz (X.ref_faceyz dims X.NU iy iz ie ia iu 0)
      = X.Quantities_init_faceyz
          (if X.Dir_x octant = Dir.up then -1 else dims.nx) iy iz ie ia iu dims := by
  have key : s1.sweeper.facexy
        = init_facexy X dims (X.Dir_z octant) 0 s.sweeper.facexy ∧
      s1.sweeper.facexz = init_facexz X dims (X.Dir_y octant) 0 s.sweeper.facexz ∧
      s1.sweeper.faceyz = init_faceyz X dims (X.Dir_x octant) 0 s.sweeper.faceyz := by
    rcases hs1 with h | ⟨ix0, iy0, iz0, ie0, h⟩
    · subst h; exact ⟨rfl, rfl, rfl⟩
    · subst h; rw [moments_to_angles_eq]; exact ⟨rfl, rfl, rfl⟩
  rw [key.1, key.2.1, key.2.2]
  exact ⟨init_facexy_val X dims hxy _ _ ix iy ie ia iu hix hiy hie hia hiu,
    init_facexz_val X dims hxz _ _ ix iz ie ia iu hix hiz hie hia hiu,
    init_faceyz_val X dims hyz _ _ iy iz ie ia iu hiy hiz hie hia hiu⟩

/-- Instance of C5: octant 5 of the example (x down, y up, z down) on the
two-cells-per-axis grid, boundary value 9, slot of the in-plane pair (1, 1). -/
theorem C5_boundary_initialisation_witness :
    (FaceXYInj (exExternals 9) exDims2 ∧ FaceXZInj (exExternals 9) exDims2 ∧
      FaceYZInj (exExternals 9) exDims2) ∧
    (init_faces (exExternals 9) exDims2 ((exExternals 9).Dir_x 5) ((exExternals 9).Dir_y 5)
        ((exExternals 9).Dir_z 5) 0 exState).sweeper.facexy
        ((exExternals 9).ref_facexy exDims2 (exExternals 9).NU 1 1 0 0 0 0) = 9 :=
  ⟨⟨ex_facexy_inj 9, ex_facexz_inj 9, ex_faceyz_inj 9⟩,
   (C5_boundary_initialisation (exExternals 9) exQuan exDims2 (ex_facexy_inj 9)
      (ex_facexz_inj 9) (ex_faceyz_inj 9) 5 exState _ (Or.inl rfl) 1 1 1 0 0 0
      (by decide) (by decide) (by decide) (by decide) (by decide) (by decide)).1⟩

/-- C6, direction-determined traversal.  For an axis of extent `n ≥ 0` and
enough fuel, the direction loop terminates; it runs its body at `0, 1, …, n-1`
in this order when the flag is up and at `n-1, …, 1, 0` when it is down, so
that the opposite flag gives the reversed sequence; for an arbitrary body the
loop is the fold of the body over that sequence.  The gridcell loop nest visits
the cells with z outermost, then y, then x, each axis in its own order, and two
direction triples visit the same set of cells. -/
theorem C6_direction_determined_traversal (fuel : Nat) (n : Int) (hn : 0 ≤ n)
    (hf : n.toNat < fuel) :
    axis_trace fuel n Dir.up = some ((List.range n.toNat).map (fun j : Nat => (j : Int))) ∧
    axis_trace fuel n Dir.dn
      = some (((List.range n.toNat).map (fun j : Nat => (j : Int))).reverse) ∧
    (∀ d : Dir, ∃ visited : List Int, axis_trace fuel n d = some visited ∧
      ∀ (σ : Type) (body : Int → σ → σ) (s : σ),
        axis_loop fuel n d (fun i acc => some (body i acc)) s
          = some (visited.foldl (fun acc i => body i acc) s)) ∧
    (∀ (dims : Dimensions) (idirx idiry idirz : Dir), FuelCovers fuel dims →
      ∃ xs ys zs : List Int,
        axis_trace fuel dims.nx idirx = some xs ∧
        axis_trace fuel dims.ny idiry = some ys ∧
        axis_trace fuel dims.nz idirz = some zs ∧
        grid_trace fuel dims idirx idiry idirz
          = some (zs.flatMap (fun iz => ys.flatMap (fun iy => xs.map (fun ix => (iz, iy, ix))))) ∧
        ∀ (jdirx jdiry jdirz : Dir), ∃ other : List (Int × Int × Int),
          grid_trace fuel dims jdirx jdiry jdirz = some other ∧
          ∀ c, c ∈ other ↔
            c ∈ zs.flatMap (fun iz => ys.flatMap (fun iy => xs.map (fun ix => (iz, iy, ix))))) := by
  refine ⟨axis_trace_eq fuel n Dir.up hn hf, axis_trace_eq fuel n Dir.dn hn hf, ?_, ?_⟩
  · intro d
    refine ⟨axis_order n d, axis_trace_eq fuel n d hn hf, ?_⟩
    intro σ body s
    exact axis_loop_eq fuel n d _ body s hn hf (fun _ _ _ _ => rfl)
  · intro dims dx dy dz hc
    have hc1 := hc
    obtain ⟨⟨hx, hfx⟩, ⟨hy, hfy⟩, ⟨hz, hfz⟩⟩ := hc1
    refine ⟨axis_order dims.nx dx, axis_order dims.ny dy, axis_order dims.nz dz,
      axis_trace_eq fuel _ _ hx hfx, axis_trace_eq fuel _ _ hy hfy,
      axis_trace_eq fuel _ _ hz hfz, ?_, ?_⟩
    · rw [grid_trace_eq fuel dims dx dy dz hc, cell_order_nested]
    · intro jx jy jz
      refine ⟨cell_order dims jx jy jz, grid_trace_eq fuel dims jx jy jz hc, ?_⟩
      intro c
      rw [← cell_order_nested, mem_cell_order, mem_cell_order]

/-- Instance of C6: an axis of extent 3 is walked `0,1,2` upwards and `2,1,0`
downwards. -/
theorem C6_direction_determined_traversal_witness :
    ((0 : Int) ≤ 3 ∧ (3 : Int).toNat < 4) ∧
    axis_trace 4 3 Dir.up = some [0, 1, 2] ∧ axis_trace 4 3 Dir.dn = some [2, 1, 0] :=
  ⟨by decide,
   (C6_direction_determined_traversal 4 3 (by decide) (by decide)).1,
   (C6_direction_determined_traversal 4 3 (by decide) (by decide)).2.1⟩

/-- C7, the scratch state carries nothing into a sweep.  With a solve operator
that is a function of its arguments only, two runs of `Sweeper_sweep` on the
same input field, quantities and dimensions, started from arbitrary contents of
`v_local`, `facexy`, `facexz`, `faceyz` and of the output field, both return
and leave the same output field. -/
theorem C7_scratch_carries_nothing {P : Type} [Semiring P] (X : Externals P)
    (quan : Quantities P) (dims : Dimensions) (fuel : Nat) (hf : FuelCovers fuel dims)
    (hsolve : SolveLocal X quan dims) (vi : Nat → P) (sweeper1 sweeper2 : Sweeper P)
    (vo1 vo2 : Nat → P) :
    ∃ r1 r2 : State P,
      Sweeper_sweep X fuel sweeper1 vo1 vi quan dims = some r1 ∧
      Sweeper_sweep X fuel sweeper2 vo2 vi quan dims = some r2 ∧
      r1.vo = r2.vo := by
  refine ⟨_, _, Sweeper_sweep_eq X fuel sweeper1 vo1 vi quan dims hf,
    Sweeper_sweep_eq X fuel sweeper2 vo2 vi quan dims hf, ?_⟩
  unfold sweep_result
  have h := forLt_rel (fun (s1 t1 : State P) => s1.vo = t1.vo ∧ s1.vi = t1.vi) NOCTANT
    (fun octant s => octant_result X quan dims octant s)
    (fun octant s => octant_result X quan dims octant s)
    (fun o h0 h1 s1 t1 hst =>
      octant_result_agree X quan dims hsolve o ⟨h0, h1⟩ s1 t1 hst.1 hst.2)
    { sweeper := sweeper1, vo := initialize_state_zero vo1 dims X.NU, vi := vi }
    { sweeper := sweeper2, vo := initialize_state_zero vo2 dims X.NU, vi := vi }
    ⟨rfl, rfl⟩
  exact h.1

/-- Instance of C7: the example solve on the two-cells-per-axis grid, once from
scratch buffers and an output field filled with 7 and 5, once from zeros. -/
theorem C7_scratch_carries_nothing_witness :
    (FuelCovers 3 exDims2 ∧ SolveLocal (exExternals 1) exQuan exDims2) ∧
    ∃ r1 r2 : State Int,
      Sweeper_sweep (exExternals 1) 3 (exSweeper 7) (fun _ => 5) (fun _ => 3) exQuan exDims2
        = some r1 ∧
      Sweeper_sweep (exExternals 1) 3 (exSweeper 0) (fun _ => 0) (fun _ => 3) exQuan exDims2
        = some r2 ∧
      r1.vo = r2.vo :=
  ⟨⟨ex_fuel, ex_solve_local 1 exQuan⟩,
   C7_scratch_carries_nothing (exExternals 1) exQuan exDims2 3 ex_fuel
     (ex_solve_local 1 exQuan) (fun _ => 3) (exSweeper 7) (exSweeper 0) (fun _ => 5)
     (fun _ => 0)⟩

/-- C8, no accelerator.  When `USE_HIP` is not defined, for every runtime,
every memory content, every `Env`, all pointers (null included), every `n` and
every stream: the four copy functions, `Env_hip_stream_wait`,
`Env_hip_initialize_` and `Env_hip_finalize_` return without a failed assertion
and leave host memory, device memory and the `Env` as they were; the three
stream accessors return the null stream `0`; `Env_hip_is_using_device` returns
false and `Env_hip_last_call_succeeded` returns true. -/
theorem C8_no_accelerator_noop {P : Type} (H : HipRuntime P) (env : Env) (m : Machine P)
    (p_d p_h n : Nat) (stream : Stream_t) (argc : Int) (argv : List String) :
    cuda_copy_host_to_device_P false H p_d p_h n m = Except.ok m ∧
    cuda_copy_device_to_host_P false H p_h p_d n m = Except.ok m ∧
    cuda_copy_host_to_device_stream_P false H p_d p_h n stream m = Except.ok m ∧
    cuda_copy_device_to_host_stream_P false H p_h p_d n stream m = Except.ok m ∧
    Env_hip_stream_wait false H env stream m = Except.ok (env, m) ∧
    Env_hip_initialize_ false H env argc argv m = Except.ok (env, m) ∧
    Env_hip_finalize_ false H env m = Except.ok (env, m) ∧
    Env_hip_stream_send_block false env = 0 ∧
    Env_hip_stream_recv_block false env = 0 ∧
    Env_hip_stream_kernel_faces false env = 0 ∧
    Env_hip_is_using_device false env = Bool_false ∧
    Env_hip_last_call_succeeded false H m = (Bool_true, m) :=
  ⟨rfl, rfl, rfl, rfl, rfl, rfl, rfl, rfl, rfl, rfl, rfl, rfl⟩

/-- C9, moment-to-angle transform.  Provided in-range (angle, unknown) pairs of
the local buffer have distinct offsets, in the state on which a cell visit
calls `Quantities_solve` the local buffer holds at every in-range `(ia, iu)`
the value accumulated from zero in ascending `im` of
`a_from_m(im, ia) * vi(ix, iy, iz, ie, im, iu)`, which is the sum of these
products over `im = 0..nm-1` and is zero when `nm = 0`; the input field is not
modified. -/
theorem C9_moments_to_angles {P : Type} [Semiring P] (X : Externals P)
    (quan : Quantities P) (dims : Dimensions) (hinj : VLocalInj X dims)
    (octant octant_ind ix iy iz ie : Int) (s : State P) :
    cell_body X quan dims octant octant_ind ie iz iy ix s
      = angles_to_moments X quan dims ix iy iz ie
          (solve_step X quan dims ix iy iz ie octant octant_ind
            (moments_to_angles X quan dims ix iy iz ie s)) ∧
    (∀ ia iu : Int, 0 ≤ ia ∧ ia < dims.na → 0 ≤ iu ∧ iu < X.NU →
      (moments_to_angles X quan dims ix iy iz ie s).sweeper.v_local
          (X.ref_v_local dims X.NU ia iu)
        = (List.range dims.nm.toNat).foldl (fun (result : P) (j : Nat) =>
            result + quan.a_from_m (X.ref_a_from_m dims (Int.ofNat j) ia) *
              s.vi (X.ref_state dims X.NU ix iy iz ie (Int.ofNat j) iu)) 0 ∧
      (moments_to_angles X quan dims ix iy iz ie s).sweeper.v_local
          (X.ref_v_local dims X.NU ia iu)
        = ∑ j in Finset.range dims.nm.toNat,
            quan.a_from_m (X.ref_a_from_m dims (j : Int) ia) *
              s.vi (X.ref_state dims X.NU ix iy iz ie (j : Int) iu) ∧
      (dims.nm = 0 →
        (moments_to_angles X quan dims ix iy iz ie s).sweeper.v_local
          (X.ref_v_local dims X.NU ia iu) = 0)) ∧
    (moments_to_angles X quan dims ix iy iz ie s).vi = s.vi := by
  refine ⟨rfl, ?_, ?_⟩
  · intro ia iu hia hiu
    have hv := moments_to_angles_val X quan dims hinj ix iy iz ie s ia iu hia hiu
    refine ⟨?_, ?_, ?_⟩
    · rw [hv]; rfl
    · rw [hv, a_from_m_row_sum]
    · intro hnm
      rw [hv, a_from_m_row_sum, hnm]
      simp
  · rw [moments_to_angles_eq]

/-- Instance of C9: on the example (one moment, operator entry 1, input field
3 everywhere) the local buffer holds 3 when the solve is called. -/
theorem C9_moments_to_angles_witness :
    VLocalInj (exExternals 1) exDims2 ∧
    (moments_to_angles (exExternals 1) exQuan exDims2 0 1 1 0 exState).sweeper.v_local
        ((exExternals 1).ref_v_local exDims2 (exExternals 1).NU 0 0)
      = ∑ j in Finset.range exDims2.nm.toNat,
          exQuan.a_from_m ((exExternals 1).ref_a_from_m exDims2 (j : Int) 0) *
            exState.vi ((exExternals 1).ref_state exDims2 (exExternals 1).NU 0 1 1 0 (j : Int) 0) :=
  ⟨ex_vlocal_inj 1,
   ((C9_moments_to_angles (exExternals 1) exQuan exDims2 (ex_vlocal_inj 1) 0 0 0 1 1 0
      exState).2.1 0 0 (by decide) (by decide)).2.1⟩

/-- C10, angle-to-moment accumulation.  Provided in-range (moment, unknown)
pairs at the visited cell have distinct offsets in the state field, a cell
visit adds to `vo(ix, iy, iz, ie, im, iu)`, for every in-range `im` and `iu`,
the value accumulated from zero in ascending `ia` of
`m_from_a(im, ia) * w(ia, iu)`, which is the sum of these products over
`ia = 0..na-1`, where `w` is the local buffer after `Quantities_solve`; every
offset of the output field that is not addressed by such a pair keeps its
value. -/
theorem C10_angles_to_moments {P : Type} [Semiring P] (X : Externals P)
    (quan : Quantities P) (dims : Dimensions) (octant octant_ind ix iy iz ie : Int)
    (hinj : StateCellInj X dims ix iy iz ie) (s : State P) :
    (∀ im iu : Int, 0 ≤ im ∧ im < dims.nm → 0 ≤ iu ∧ iu < X.NU →
      (cell_body X quan dims octant octant_ind ie iz iy ix s).vo
          (X.ref_state dims X.NU ix iy iz ie im iu)
        = s.vo (X.ref_state dims X.NU ix iy iz ie im iu) +
            (List.range dims.na.toNat).foldl (fun (result : P) (j : Nat) =>
              result + quan.m_from_a (X.ref_m_from_a dims im (Int.ofNat j)) *
                (solve_step X quan dims ix iy iz ie octant octant_ind
                  (moments_to_angles X quan dims ix iy iz ie s)).sweeper.v_local
                  (X.ref_v_local dims X.NU (Int.ofNat j) iu)) 0 ∧
      (cell_body X quan dims octant octant_ind ie iz iy ix s).vo
          (X.ref_state dims X.NU ix iy iz ie im iu)
        = s.vo (X.ref_state dims X.NU ix iy iz ie im iu) +
            ∑ j in Finset.range dims.na.toNat,
              quan.m_from_a (X.ref_m_from_a dims im (j : Int)) *
                (solve_step X quan dims ix iy iz ie octant octant_ind
                  (moments_to_angles X quan dims ix iy iz ie s)).sweeper.v_local
                  (X.ref_v_local dims X.NU (j : Int) iu)) ∧
    (∀ k : Nat,
      (∀ im iu : Int, 0 ≤ im ∧ im < dims.nm → 0 ≤ iu ∧ iu < X.NU →
        X.ref_state dims X.NU ix iy iz ie im iu ≠ k) →
      (cell_body X quan dims octant octant_ind ie iz iy ix s).vo k = s.vo k) := by
  have hvo : (solve_step X quan dims ix iy iz ie octant octant_ind
      (moments_to_angles X quan dims ix iy iz ie s)).vo = s.vo := by
    rw [moments_to_angles_eq]; rfl
  have hcell : (cell_body X quan dims octant octant_ind ie iz iy ix s).vo
      = accum_fold (fun t : Int × Int => X.ref_state dims X.NU ix iy iz ie t.2 t.1)
          (fun t : Int × Int => m_from_a_row X quan dims
            (solve_step X quan dims ix iy iz ie octant octant_ind
              (moments_to_angles X quan dims ix iy iz ie s)).sweeper.v_local t.2 t.1)
          ((upto X.NU).product (upto dims.nm)) s.vo := by
    unfold cell_body
    rw [angles_to_moments_eq, hvo]
  constructor
  · intro im iu him hiu
    have hval := accum_fold_val
      (fun t : Int × Int => X.ref_state dims X.NU ix iy iz ie t.2 t.1)
      (fun t : Int × Int => m_from_a_row X quan dims
        (solve_step X quan dims ix iy iz ie octant octant_ind
          (moments_to_angles X quan dims ix iy iz ie s)).sweeper.v_local t.2 t.1)
      (iu, im) ((upto X.NU).product (upto dims.nm)) s.vo
      (List.Nodup.product (nodup_upto _) (nodup_upto _))
      (mem_pair_upto.mpr ⟨hiu, him⟩)
      (by
        rintro ⟨u, m⟩ hb hk
        obtain ⟨h1, h2⟩ := mem_pair_upto.mp hb
        obtain ⟨rfl, rfl⟩ := hinj _ _ _ _ h2 h1 him hiu hk
        rfl)
    rw [hcell]
    refine ⟨hval.trans ?_, hval.trans ?_⟩
    · rfl
    · simp only
      rw [m_from_a_row_sum]
  · intro k hk
    rw [hcell]
    apply accum_fold_frame
    rintro ⟨u, m⟩ hb
    obtain ⟨h1, h2⟩ := mem_pair_upto.mp hb
    exact hk m u h2 h1

/-- Instance of C10: the visit of cell (1, 0, 1) of the example in octant 2. -/
theorem C10_angles_to_moments_witness :
    StateCellInj (exExternals 1) exDims2 1 0 1 0 ∧
    (cell_body (exExternals 1) exQuan exDims2 2 0 0 1 0 1 exState).vo
        ((exExternals 1).ref_state exDims2 (exExternals 1).NU 1 0 1 0 0 0)
      = exState.vo ((exExternals 1).ref_state exDims2 (exExternals 1).NU 1 0 1 0 0 0) +
          ∑ j in Finset.range exDims2.na.toNat,
            exQuan.m_from_a ((exExternals 1).ref_m_from_a exDims2 0 (j : Int)) *
              (solve_step (exExternals 1) exQuan exDims2 1 0 1 0 2 0
                (moments_to_angles (exExternals 1) exQuan exDims2 1 0 1 0 exState)).sweeper.v_local
                ((exExternals 1).ref_v_local exDims2 (exExternals 1).NU (j : Int) 0) :=
  ⟨ex_state_cell_inj 1 1 0 1 0,
   ((C10_angles_to_moments (exExternals 1) exQuan exDims2 2 0 1 0 1 0
      (ex_state_cell_inj 1 1 0 1 0) exState).1 0 0 (by decide) (by decide)).2⟩

/-- C11, validation of the device flag in `Env_hip_set_values_` (accelerator
build).  Let `v` be the integer consumed for `--is_using_device`.  With the C
precedence of `v == 0 || v == 1 ? "Invalid is_using_device value." : 0`, the
argument of `Insist` is the null pointer exactly when `v` is neither 0 nor 1;
the call succeeds if and only if `v` is 0 or 1, and then it returns the `Env`
with `v` stored in `is_using_device_` and the other fields unchanged; for every
other `v` the call fails. -/
theorem C11_device_flag_validation {Arguments : Type}
    (consume : Arguments → String → Int → Int × Arguments) (env : Env) (args : Arguments)
    (v : Int) (rest : Arguments)
    (hc : consume args "--is_using_device" Bool_false = (v, rest)) :
    (is_using_device_check v = none ↔ ¬ (v = 0 ∨ v = 1)) ∧
    ((∃ r, Env_hip_set_values_ true consume env args = Except.ok r) ↔ (v = 0 ∨ v = 1)) ∧
    ((v = 0 ∨ v = 1) →
      Env_hip_set_values_ true consume env args
        = Except.ok ({ env with is_using_device_ := v }, rest)) ∧
    (¬ (v = 0 ∨ v = 1) →
      Env_hip_set_values_ true consume env args = Except.error "Insist") := by
  have hcheck : is_using_device_check v
      = if v = 0 ∨ v = 1 then some "Invalid is_using_device value." else none := by
    unfold is_using_device_check
    by_cases h0 : v = 0
    · simp [h0]
    · by_cases h1 : v = 1
      · simp [h1]
      · simp [h0, h1]
  have hok : (v = 0 ∨ v = 1) →
      Env_hip_set_values_ true consume env args
        = Except.ok ({ env with is_using_device_ := v }, rest) := by
    intro h
    unfold Env_hip_set_values_
    simp only [if_true, hc, hcheck, if_pos h, Option.isSome_some, Insist]
    rfl
  have herr : ¬ (v = 0 ∨ v = 1) →
      Env_hip_set_values_ true consume env args = Except.error "Insist" := by
    intro h
    unfold Env_hip_set_values_
    simp only [if_true, hc, hcheck, if_neg h, Option.isSome_none, Insist]
    rfl
  refine ⟨?_, ?_, hok, herr⟩
  · rw [hcheck]
    by_cases h : v = 0 ∨ v = 1
    · simp [h]
    · simp [h]
  · constructor
    · rintro ⟨r, hr⟩
      by_contra h
      rw [herr h] at hr
      cases hr
    · intro h
      exact ⟨_, hok h⟩

/-- Instance of C11: the consumed integer 2 is rejected although it is
non-zero, and the consumed integer 1 is stored. -/
theorem C11_device_flag_validation_witness :
    (exConsume [2] "--is_using_device" Bool_false = (2, []) ∧
      exConsume [1, 7] "--is_using_device" Bool_false = (1, [7])) ∧
    Env_hip_set_values_ true exConsume exEnv [2] = Except.error "Insist" ∧
    Env_hip_set_values_ true exConsume exEnv [1, 7]
      = Except.ok ({ exEnv with is_using_device_ := 1 }, [7]) :=
  ⟨⟨rfl, rfl⟩,
   (C11_device_flag_validation exConsume exEnv [2] 2 [] rfl).2.2.2 (by decide),
   (C11_device_flag_validation exConsume exEnv [1, 7] 1 [7] rfl).2.2.1 (by decide)⟩

end Minisweep
